import Mathlib

/-!
Verification development for the moonlight-kernel streaming buffer protocol.

The definitions below form a shallow embedding of the Rust sources:
  - src/bridge-rust/src/native_kernel.rs  (reference in-process engine `NativeKernel`)
  - src/bridge-rust/src/main.rs           (`NativeBackend`, `WasmBackend::new`,
                                           `MoonlightBridge::write_batch`)
Byte buffers are modelled as total functions `Nat -> Nat` holding byte values;
machine indices are `Nat` with the source's `& MASK` bitmask kept literally
(`&&&`), and `i32` arguments are `Int`.  Rust mutation is explicit state
passing, a Rust `panic` is `Option.none` (or a dedicated error constructor),
and `anyhow` fallibility is `Except`.

Floating point: the per-vector transform computes `len_sq = x*x+y*y+z*z` in
f32 (f64 in the mock kernel).  For byte inputs (values at most 255) the squares
and their sum are integers below 2^24, hence exact in both formats, so the
branch condition `len_sq > 0.0` is modelled exactly over `Nat`.  The
normalisation branch (`x/len * 100 + 100` with `len = sqrt len_sq`) is genuine
floating point and is abstracted as a parameter `F : NormFn` giving the three
result bytes; every stream-level theorem holds for all `F`.  The zero branch
multiplies the untouched components by 100 and adds 100, which is again exact
integer float arithmetic, so it is modelled concretely, including the
saturating float-to-u8 `as` cast.
-/

/-- Constant `BUFFER_SIZE` from native_kernel.rs: the capacity of each region. -/
def BUFFER_SIZE : Nat := 65536

/-- Constant `MASK = BUFFER_SIZE - 1` from native_kernel.rs, the index bitmask. -/
def MASK : Nat := BUFFER_SIZE - 1

/-- State of the reference engine, struct `NativeKernel` from native_kernel.rs.
`buffer` is the input region, `output_buffer` the output region; both are byte
functions indexed by `Nat`. -/
structure NativeKernel where
  buffer : Nat → Nat
  output_buffer : Nat → Nat
  canary : Nat
  tail_canary : Nat
  read_head : Nat
  write_head : Nat

/-- Constructor `NativeKernel::new()`: zeroed regions, canaries 0xAA / 0x55,
both heads 0. -/
def NativeKernel.new : NativeKernel :=
  { buffer := fun _ => 0
    output_buffer := fun _ => 0
    canary := 0xAA
    tail_canary := 0x55
    read_head := 0
    write_head := 0 }

/-- Method `set_write_head(pos: i32)`: negative positions are ignored,
otherwise the position is masked into range. -/
def NativeKernel.set_write_head (k : NativeKernel) (pos : Int) : NativeKernel :=
  if 0 ≤ pos then { k with write_head := pos.toNat &&& MASK } else k

/-- Method `check_integrity()`: 1 iff both canaries hold their sentinel. -/
def NativeKernel.check_integrity (k : NativeKernel) : Int :=
  if k.canary = 0xAA ∧ k.tail_canary = 0x55 then 1 else 0

/-- Private method `diff()`: the unread byte count from `read_head` to
`write_head` with the wraparound formula. -/
def NativeKernel.diff (k : NativeKernel) : Nat :=
  if k.read_head ≤ k.write_head then k.write_head - k.read_head
  else (BUFFER_SIZE - k.read_head) + k.write_head

/-- Write one byte of the output region (a single
`self.output_buffer[i] = v` store). -/
def NativeKernel.setOut (k : NativeKernel) (i v : Nat) : NativeKernel :=
  { k with output_buffer := Function.update k.output_buffer i v }

/-- Abstraction of the floating-point normalisation branch of the per-vector
transform: given the three input bytes (with positive squared length), the
three bytes stored by `(c/len * 100.0 + 100.0) as u8`. -/
def NormFn : Type := Nat → Nat → Nat → Nat × Nat × Nat

/-- Rust saturating float-to-u8 `as` cast, applied to a float holding the
exact nonnegative integer `v`. -/
def u8cast (v : Nat) : Nat := min v 255

/-- Method `process_vector_at(idx)`: read the triple at `idx` (the y/z reads
masked as in the source), normalise, store the three scaled bytes in order
x, y, z.  The `len_sq > 0.0` branch is `F`; the zero branch stores
`(c * 100 + 100) as u8` for the untouched components. -/
def process_vector_at (F : NormFn) (k : NativeKernel) (idx : Nat) : NativeKernel :=
  let x := k.buffer idx
  let y := k.buffer ((idx + 1) &&& MASK)
  let z := k.buffer ((idx + 2) &&& MASK)
  let out := if 0 < x * x + y * y + z * z then F x y z
             else (u8cast (x * 100 + 100), u8cast (y * 100 + 100), u8cast (z * 100 + 100))
  ((k.setOut idx out.1).setOut ((idx + 1) &&& MASK) out.2.1).setOut ((idx + 2) &&& MASK) out.2.2

/-- Body of one vector inside `process_contiguous_chunk_simd`: identical math
to `process_vector_at` but through contiguous slices, so the component offsets
`idx+1`, `idx+2` carry no mask. -/
def process_vector_contig (F : NormFn) (k : NativeKernel) (idx : Nat) : NativeKernel :=
  let x := k.buffer idx
  let y := k.buffer (idx + 1)
  let z := k.buffer (idx + 2)
  let out := if 0 < x * x + y * y + z * z then F x y z
             else (u8cast (x * 100 + 100), u8cast (y * 100 + 100), u8cast (z * 100 + 100))
  ((k.setOut idx out.1).setOut (idx + 1) out.2.1).setOut (idx + 2) out.2.2

/-- Value triple stored by `process_vector_at(idx)`: the three output bytes
as a function of the input triple (masked reads as in the source). -/
def vecOut (F : NormFn) (k : NativeKernel) (idx : Nat) : Nat × Nat × Nat :=
  let x := k.buffer idx
  let y := k.buffer ((idx + 1) &&& MASK)
  let z := k.buffer ((idx + 2) &&& MASK)
  if 0 < x * x + y * y + z * z then F x y z
  else (u8cast (x * 100 + 100), u8cast (y * 100 + 100), u8cast (z * 100 + 100))

/-- Inner `for i in 0..cnt` loop over contiguous vectors at
`base, base+3, ...` (the 16-vector and 4-vector loops of
`process_contiguous_chunk_simd` are instances with cnt = 16 and cnt = 4). -/
def processContigRange (F : NormFn) (k : NativeKernel) (base : Nat) : Nat → NativeKernel
  | 0 => k
  | i + 1 => process_vector_contig F (processContigRange F k base i) (base + 3 * i)

/-- The `chunks_exact(48)` outer loop of `process_contiguous_chunk_simd`:
chunk c covers bytes `[base + 48c, base + 48c + 48)`, 16 vectors each. -/
def simdChunks (F : NormFn) (k : NativeKernel) (base : Nat) : Nat → NativeKernel
  | 0 => k
  | c + 1 => processContigRange F (simdChunks F k base c) (base + 48 * c) 16

/-- The remainder loop of `process_contiguous_chunk_simd`: `chunks_exact(12)`
over the tail, 4 vectors per sub-chunk. -/
def simdSubChunks (F : NormFn) (k : NativeKernel) (base : Nat) : Nat → NativeKernel
  | 0 => k
  | c + 1 => processContigRange F (simdSubChunks F k base c) (base + 12 * c) 4

/-- Function `process_contiguous_chunk_simd(in_slice, out_slice)` applied to
the regions `[base, base+len)`: `len / 48` full 48-byte chunks, then the
`len % 48` remainder in 12-byte sub-chunks (the final `< 12` tail is left
untouched by `chunks_exact`). -/
def process_contiguous_chunk_simd (F : NormFn) (k : NativeKernel) (base len : Nat) : NativeKernel :=
  let k1 := simdChunks F k base (len / 48)
  simdSubChunks F k1 (base + 48 * (len / 48)) (len % 48 / 12)

/-- Masked `for k in 0..cnt { process_vector_at((read_head + k*3) & MASK) }`
loop used by the 12-byte fallback branches of `process_tensor_stream` (with
cnt = chunk_len/3, and the explicitly unrolled `0..4` wrapped-data branch). -/
def processVecRangeMasked (F : NormFn) (k : NativeKernel) (r : Nat) : Nat → NativeKernel
  | 0 => k
  | i + 1 => process_vector_at F (processVecRangeMasked F k r i) ((r + i * 3) &&& MASK)

/-- Main `while remaining >= 48` loop of `process_tensor_stream`, with the
iteration count bounded by `fuel` (each pass consumes at least 12 bytes, so
`fuel = remaining` always suffices).  The source's fall-through
`if .. continue` chain is rendered as a first-match conditional chain: the
first branch fires when `contiguous_len >= 48` and the 48-aligned
`chunk_len` is positive, the second when `contiguous_len` is in `[12, 48)`,
the third (four masked vectors) when `remaining >= 12`, and otherwise the
loop breaks.  Returns (kernel, remaining, processed). -/
def streamMainLoop (F : NormFn) : Nat → NativeKernel → Nat → Nat → NativeKernel × Nat × Nat
  | 0, k, remaining, processed => (k, remaining, processed)
  | fuel + 1, k, remaining, processed =>
    if 48 ≤ remaining then
      let contiguous_len := BUFFER_SIZE - k.read_head
      if 48 ≤ contiguous_len ∧ 0 < min remaining contiguous_len / 48 * 48 then
        let chunk_len := min remaining contiguous_len / 48 * 48
        let k' := { process_contiguous_chunk_simd F k k.read_head chunk_len with
                    read_head := (k.read_head + chunk_len) &&& MASK }
        streamMainLoop F fuel k' (remaining - chunk_len) (processed + chunk_len)
      else if contiguous_len < 48 ∧ 12 ≤ contiguous_len then
        let chunk_len := contiguous_len / 12 * 12
        let k' := { processVecRangeMasked F k k.read_head (chunk_len / 3) with
                    read_head := (k.read_head + chunk_len) &&& MASK }
        streamMainLoop F fuel k' (remaining - chunk_len) (processed + chunk_len)
      else if 12 ≤ remaining then
        let k' := { processVecRangeMasked F k k.read_head 4 with
                    read_head := (k.read_head + 12) &&& MASK }
        streamMainLoop F fuel k' (remaining - 12) (processed + 12)
      else
        (k, remaining, processed)
    else
      (k, remaining, processed)

/-- Final `while remaining >= 3` cleanup loop of `process_tensor_stream`:
one vector at the raw `read_head` per pass.  Returns (kernel, processed). -/
def streamCleanup (F : NormFn) : Nat → NativeKernel → Nat → Nat → NativeKernel × Nat
  | 0, k, _, processed => (k, processed)
  | fuel + 1, k, remaining, processed =>
    if 3 ≤ remaining then
      let k' := { process_vector_at F k k.read_head with
                  read_head := (k.read_head + 3) &&& MASK }
      streamCleanup F fuel k' (remaining - 3) (processed + 3)
    else (k, processed)

/-- Method `process_tensor_stream()`: canary check first (a corrupted canary
panics, modelled as `none`), early return 0 when fewer than 3 bytes are
available, otherwise the main chunked loop followed by the cleanup loop.
Returns the mutated kernel and the processed byte count. -/
def process_tensor_stream (F : NormFn) (k : NativeKernel) : Option (NativeKernel × Nat) :=
  if k.canary ≠ 0xAA ∨ k.tail_canary ≠ 0x55 then none
  else
    let available := k.diff
    if available < 3 then some (k, 0)
    else
      let r1 := streamMainLoop F available k available 0
      some (streamCleanup F r1.2.1 r1.1 r1.2.1 r1.2.2)

/-- Rust `u8::saturating_add` (also the mock kernel's `(a + b).min(255)`). -/
def satAddU8 (a b : Nat) : Nat := min (a + b) 255

/-- One vector of `vector_add_batch`: the three sequential
`output[i] = output[i].saturating_add(buffer[i])` stores at `idx`,
`(idx+1) & MASK`, `(idx+2) & MASK`. -/
def addVecStep (k : NativeKernel) (idx : Nat) : NativeKernel :=
  let idx_y := (idx + 1) &&& MASK
  let idx_z := (idx + 2) &&& MASK
  let k1 := k.setOut idx (satAddU8 (k.output_buffer idx) (k.buffer idx))
  let k2 := k1.setOut idx_y (satAddU8 (k1.output_buffer idx_y) (k1.buffer idx_y))
  k2.setOut idx_z (satAddU8 (k2.output_buffer idx_z) (k2.buffer idx_z))

/-- One pass of the 4x-unrolled main loop of `vector_add_batch`: four vector
steps, the transient cursor advancing by 3 (masked) after each.  Returns the
kernel and the advanced cursor. -/
def addStep4 (k : NativeKernel) (idx : Nat) : NativeKernel × Nat :=
  let k1 := addVecStep k idx
  let i1 := (idx + 3) &&& MASK
  let k2 := addVecStep k1 i1
  let i2 := (i1 + 3) &&& MASK
  let k3 := addVecStep k2 i2
  let i3 := (i2 + 3) &&& MASK
  let k4 := addVecStep k3 i3
  (k4, (i3 + 3) &&& MASK)

/-- The `while i + 4 <= n` unrolled loop of `vector_add_batch`, recursing on
the count of vectors still to process.  Returns (kernel, cursor, leftover). -/
def addMainLoop : Nat → NativeKernel → Nat → NativeKernel × Nat × Nat
  | m + 4, k, idx => let p := addStep4 k idx; addMainLoop m p.1 p.2
  | m, k, idx => (k, idx, m)

/-- The trailing `while i < n` drain loop of `vector_add_batch`. -/
def addTailLoop : Nat → NativeKernel → Nat → NativeKernel
  | 0, k, _ => k
  | m + 1, k, idx => addTailLoop m (addVecStep k idx) ((idx + 3) &&& MASK)

/-- Method `vector_add_batch(count)`: a transient cursor starts at the
persistent `read_head` (which is never written); the unrolled main loop and
the drain loop perform `count` vector steps in total, and `processed`
(incremented by 4 per unrolled pass and 1 per drain step) totals `count`,
the returned value. -/
def NativeKernel.vector_add_batch (k : NativeKernel) (count : Nat) : NativeKernel × Nat :=
  let p := addMainLoop count k k.read_head
  (addTailLoop p.2.2 p.1 p.2.1, count)

/-- Unit-step form of the add loops (the spec-side fold): `m` vector steps
from cursor `idx`, returning the kernel and the final cursor. -/
def addSteps : Nat → NativeKernel → Nat → NativeKernel × Nat
  | 0, k, idx => (k, idx)
  | m + 1, k, idx => addSteps m (addVecStep k idx) ((idx + 3) &&& MASK)

/-- Wrap an integer into the i32 range (Rust `wrapping_add` normal form). -/
def wrap32 (z : Int) : Int := (z + 2147483648) % 4294967296 - 2147483648

/-- One vector of `vector_dot_batch`: the three products accumulated with
`wrapping_add`, components at `idx`, `(idx+1) & MASK`, `(idx+2) & MASK`. -/
def dotVec (k : NativeKernel) (idx : Nat) (acc : Int) : Int :=
  let idx_y := (idx + 1) &&& MASK
  let idx_z := (idx + 2) &&& MASK
  let term_x : Int := (k.buffer idx : Int) * (k.output_buffer idx : Int)
  let term_y : Int := (k.buffer idx_y : Int) * (k.output_buffer idx_y : Int)
  let term_z : Int := (k.buffer idx_z : Int) * (k.output_buffer idx_z : Int)
  wrap32 (wrap32 (wrap32 (acc + term_x) + term_y) + term_z)

/-- One pass of the 4x-unrolled main loop of `vector_dot_batch`. -/
def dotStep4 (k : NativeKernel) (idx : Nat) (acc : Int) : Int × Nat :=
  let a1 := dotVec k idx acc
  let i1 := (idx + 3) &&& MASK
  let a2 := dotVec k i1 a1
  let i2 := (i1 + 3) &&& MASK
  let a3 := dotVec k i2 a2
  let i3 := (i2 + 3) &&& MASK
  let a4 := dotVec k i3 a3
  (a4, (i3 + 3) &&& MASK)

/-- The `while i + 4 <= n` unrolled loop of `vector_dot_batch`.
Returns (accumulator, cursor, leftover). -/
def dotMainLoop (k : NativeKernel) : Nat → Nat → Int → Int × Nat × Nat
  | m + 4, idx, acc => let p := dotStep4 k idx acc; dotMainLoop k m p.2 p.1
  | m, idx, acc => (acc, idx, m)

/-- The trailing `while i < n` loop of `vector_dot_batch`. -/
def dotTailLoop (k : NativeKernel) : Nat → Nat → Int → Int
  | 0, _, acc => acc
  | m + 1, idx, acc => dotTailLoop k m ((idx + 3) &&& MASK) (dotVec k idx acc)

/-- Method `vector_dot_batch(count)` (`&self`, hence a pure function of the
kernel): transient cursor from `read_head`, accumulator 0. -/
def NativeKernel.vector_dot_batch (k : NativeKernel) (count : Nat) : Int :=
  let p := dotMainLoop k count k.read_head 0
  dotTailLoop k p.2.2 p.2.1 p.1

/-- Unit-step form of the dot loops: `m` vector accumulations from cursor
`idx`, returning the accumulator and the final cursor. -/
def dotSteps (k : NativeKernel) : Nat → Nat → Int → Int × Nat
  | 0, idx, acc => (acc, idx)
  | m + 1, idx, acc => dotSteps k m ((idx + 3) &&& MASK) (dotVec k idx acc)

/-- Product of the input and output byte at position `p`, as an `Int` (the
source widens both `u8`s to `i32` before multiplying). -/
def dotTerm (k : NativeKernel) (p : Nat) : Int :=
  (k.buffer p : Int) * (k.output_buffer p : Int)

/-- Plain integer dot sum over the `n` vectors starting at cursor `r`
(indices reduced modulo the capacity): the value the wrapping accumulation
computes, before its final reduction into the i32 range. -/
def dotWindowSum (k : NativeKernel) (r n : Nat) : Int :=
  ∑ v ∈ Finset.range n,
    (dotTerm k ((r + 3 * v) % BUFFER_SIZE) + dotTerm k ((r + 3 * v + 1) % BUFFER_SIZE)
      + dotTerm k ((r + 3 * v + 2) % BUFFER_SIZE))

/-- Error outcomes of the native backend's raw access methods.
`writeOverflow` / `writeOverflowOutput` are the two `bail` returns of
`NativeBackend::write_bytes`; `indexOutOfBounds` marks a Rust slice-bounds
failure, i.e. the call panics instead of returning an error. -/
inductive BackendError where
  | writeOverflow : BackendError
  | writeOverflowOutput : BackendError
  | indexOutOfBounds : BackendError
deriving DecidableEq

/-- Trait method `get_cap` of `NativeBackend`. -/
def NativeBackend.get_cap : Nat := BUFFER_SIZE

/-- Trait method `get_input_offset` of `NativeBackend`: the virtual address
space maps `[0, CAP)` to the input buffer. -/
def NativeBackend.get_input_offset : Nat := 0

/-- Trait method `get_output_offset` of `NativeBackend`: the virtual address
space maps `[CAP, 2*CAP)` to the output buffer. -/
def NativeBackend.get_output_offset : Nat := BUFFER_SIZE

/-- Trait method `NativeBackend::write_bytes(offset, data)`: offsets below
`BUFFER_SIZE` address the input buffer, the rest address the output buffer
shifted by `BUFFER_SIZE`; each branch bails when the range leaves its region,
otherwise `copy_from_slice` replaces the addressed bytes. -/
def NativeBackend.write_bytes (k : NativeKernel) (offset : Nat) (data : List Nat) :
    Except BackendError NativeKernel :=
  if offset < BUFFER_SIZE then
    if BUFFER_SIZE < offset + data.length then .error .writeOverflow
    else .ok { k with buffer := fun i =>
                 if offset ≤ i ∧ i < offset + data.length then data.getD (i - offset) 0
                 else k.buffer i }
  else
    let rel_offset := offset - BUFFER_SIZE
    if BUFFER_SIZE < rel_offset + data.length then .error .writeOverflowOutput
    else .ok { k with output_buffer := fun i =>
                 if rel_offset ≤ i ∧ i < rel_offset + data.length then data.getD (i - rel_offset) 0
                 else k.output_buffer i }

/-- Trait method `NativeBackend::read_bytes(offset, len)`: the source slices
`buffer[offset..offset+len]` (or the output buffer at the shifted offset)
with no bounds check of its own, so a range leaving the region hits Rust's
slice-bounds failure — rendered here as the explicit `indexOutOfBounds`
outcome — instead of returning an error value. -/
def NativeBackend.read_bytes (k : NativeKernel) (offset len : Nat) :
    Except BackendError (List Nat) :=
  if offset < BUFFER_SIZE then
    if offset + len ≤ BUFFER_SIZE then
      .ok ((List.range len).map (fun i => k.buffer (offset + i)))
    else .error .indexOutOfBounds
  else
    let rel_offset := offset - BUFFER_SIZE
    if rel_offset + len ≤ BUFFER_SIZE then
      .ok ((List.range len).map (fun i => k.output_buffer (rel_offset + i)))
    else .error .indexOutOfBounds

/-- Trait method `NativeBackend::set_write_head`: delegates to the kernel and
always returns `Ok(())` (a negative position is ignored, not propagated). -/
def NativeBackend.set_write_head (k : NativeKernel) (pos : Int) :
    Except BackendError NativeKernel :=
  .ok (k.set_write_head pos)

/-- Trait method `NativeBackend::vector_dot_batch`: calls the kernel's
`&self` dot product and discards the value, leaving the kernel untouched. -/
def NativeBackend.vector_dot_batch_op (k : NativeKernel) (count : Nat) :
    Except BackendError NativeKernel :=
  let _ := k.vector_dot_batch count
  .ok k

/-- Export surface of an instantiated wasm module, as probed by
`WasmBackend::new`: which exports resolve, the values the capability queries
return, and the module's reported linear-memory size. -/
structure WasmModule where
  has_memory : Bool
  memory_size : Nat
  get_buffer_size : Option Int
  get_input_buffer_offset : Option Int
  get_output_buffer_offset : Option Int
  has_set_write_head : Bool
  has_process_tensor_stream : Bool
  has_vector_add_batch : Bool
  has_vector_dot_batch : Bool
  has_check_integrity : Bool
deriving DecidableEq

/-- Configuration produced by a successful `WasmBackend::new`. -/
structure WasmBackendState where
  cap : Nat
  input_offset : Nat
  output_offset : Nat
  has_vector_add_batch : Bool
  has_vector_dot_batch : Bool
  has_check_integrity : Bool
deriving DecidableEq

/-- Construction failures of `WasmBackend::new`, in source order. -/
inductive WasmNewError where
  | missingMemory : WasmNewError
  | missingSetWriteHead : WasmNewError
  | missingProcessTensorStream : WasmNewError
  | strictVectorAddBatch : WasmNewError
  | strictVectorDotBatch : WasmNewError
  | strictCheckIntegrity : WasmNewError
deriving DecidableEq

/-- Constructor `WasmBackend::new(kernel_path, strict_mode)` after module
instantiation: require the `memory` export; read the capacity (default 1024)
and the offset pair (default (0,0)); require `set_write_head` and
`process_tensor_stream`; in strict mode require the three optional exports.
The reported `memory_size` is never consulted anywhere in the construction. -/
def WasmBackend.new (m : WasmModule) (strict_mode : Bool) :
    Except WasmNewError WasmBackendState :=
  if ¬ m.has_memory then .error .missingMemory
  else
    let cap := match m.get_buffer_size with
      | some v => v.toNat
      | none => 1024
    let offs := match m.get_input_buffer_offset, m.get_output_buffer_offset with
      | some gio, some goo => (gio.toNat, goo.toNat)
      | _, _ => ((0 : Nat), (0 : Nat))
    if ¬ m.has_set_write_head then .error .missingSetWriteHead
    else if ¬ m.has_process_tensor_stream then .error .missingProcessTensorStream
    else if strict_mode ∧ ¬ m.has_vector_add_batch then .error .strictVectorAddBatch
    else if strict_mode ∧ ¬ m.has_vector_dot_batch then .error .strictVectorDotBatch
    else if strict_mode ∧ ¬ m.has_check_integrity then .error .strictCheckIntegrity
    else .ok { cap := cap
               input_offset := offs.1
               output_offset := offs.2
               has_vector_add_batch := m.has_vector_add_batch
               has_vector_dot_batch := m.has_vector_dot_batch
               has_check_integrity := m.has_check_integrity }

/-- The synthetic byte pattern `(i % 255) ^ 0xAA` (cast to u8) filling the
bridge's noise buffer of length `n`. -/
def noisePattern (n : Nat) : List Nat :=
  (List.range n).map (fun i => ((i % 255) ^^^ 0xAA) % 256)

/-- Method `MoonlightBridge::write_batch(write_pos, count)`, with the backend
abstracted as a write log: the lazy noise-buffer resize (which regenerates the
whole pattern), then either one `write_bytes` call at
`input_offset + write_pos`, or — when `write_pos + count*3` crosses the
capacity — the two-part split at `first_chunk = cap - write_pos`.  Returns the
updated noise buffer, the `write_bytes` calls issued (offset, bytes) in order,
and the returned cursor `end_pos % cap`.  The `Result` plumbing only forwards
backend errors and is dropped from this pure log model. -/
def write_batch (cap input_offset : Nat) (noise : List Nat) (write_pos count : Nat) :
    List Nat × List (Nat × List Nat) × Nat :=
  let bytes_needed := count * 3
  let noise' := if noise.length < bytes_needed then noisePattern bytes_needed else noise
  let end_pos := write_pos + bytes_needed
  let src := noise'.take bytes_needed
  if end_pos ≤ cap then
    (noise', [(input_offset + write_pos, src)], end_pos % cap)
  else
    let first_chunk := cap - write_pos
    (noise', [(input_offset + write_pos, src.take first_chunk), (input_offset, src.drop first_chunk)],
      end_pos % cap)

/-- Spec-side per-vector application: `m` vectors at `(r + 3j) % BUFFER_SIZE`
for `j = 0, ..., m-1` in order — the scalar semantics every processing path
of `process_tensor_stream` must realise. -/
def applyVectors (F : NormFn) (k : NativeKernel) (r : Nat) : Nat → NativeKernel
  | 0 => k
  | m + 1 => process_vector_at F (applyVectors F k r m) ((r + 3 * m) % BUFFER_SIZE)

/-- Kernel states reachable from construction through the engine operations.
`vector_dot_batch` and `read_bytes` take the kernel immutably and so produce
no new state. -/
inductive Reachable : NativeKernel → Prop where
  | init : Reachable NativeKernel.new
  | set_write_head (k : NativeKernel) (pos : Int) :
      Reachable k → Reachable (k.set_write_head pos)
  | process (k k' : NativeKernel) (F : NormFn) (n : Nat) :
      Reachable k → process_tensor_stream F k = some (k', n) → Reachable k'
  | add (k : NativeKernel) (n : Nat) :
      Reachable k → Reachable (k.vector_add_batch n).1
  | write (k k' : NativeKernel) (off : Nat) (data : List Nat) :
      Reachable k → NativeBackend.write_bytes k off data = .ok k' → Reachable k'

/-- Normalisation abstraction used by the concrete witness states (its values
are irrelevant to the witnessed facts). -/
def F0 : NormFn := fun x y z => (x, y, z)

/-- Concrete kernel state for the C1 witness: constant input bytes 3, seven
bytes announced. -/
def kC1 : NativeKernel :=
  { buffer := fun _ => 3
    output_buffer := fun _ => 0
    canary := 0xAA
    tail_canary := 0x55
    read_head := 0
    write_head := 7 }

/-- Concrete kernel state holding one announced zero vector. -/
def kZero3 : NativeKernel :=
  { buffer := fun _ => 0
    output_buffer := fun _ => 0
    canary := 0xAA
    tail_canary := 0x55
    read_head := 0
    write_head := 3 }

/-- Concrete kernel state with input vector (10, 20, 30) and zeroed output. -/
def kS : NativeKernel :=
  { buffer := fun i => if i = 0 then 10 else if i = 1 then 20 else if i = 2 then 30 else 0
    output_buffer := fun _ => 0
    canary := 0xAA
    tail_canary := 0x55
    read_head := 0
    write_head := 0 }

/-- Concrete kernel state with every input byte 1 and zeroed output. -/
def kOnes : NativeKernel :=
  { buffer := fun _ => 1
    output_buffer := fun _ => 0
    canary := 0xAA
    tail_canary := 0x55
    read_head := 0
    write_head := 0 }

/-- Concrete module surface whose region bounds exceed its reported memory
size: memory size 0, but capacity 65536 at offsets (0, 65536); every export
present. -/
def wasmTinyMemory : WasmModule :=
  { has_memory := true
    memory_size := 0
    get_buffer_size := some 65536
    get_input_buffer_offset := some 0
    get_output_buffer_offset := some 65536
    has_set_write_head := true
    has_process_tensor_stream := true
    has_vector_add_batch := true
    has_vector_dot_batch := true
    has_check_integrity := true }

/-- Linear memory of an instantiated wasm module: byte contents and the
memory's data size.  The module loader is external (spec section 6: a black
box exposing a linear memory region); this structure is the region it
exposes. -/
structure WasmMemory where
  data : Nat → Nat
  size : Nat

/-- Error returned by the runtime's raw memory accessors (wasmtime's
`MemoryAccessError`), propagated by the `?` operator in
`WasmBackend::write_bytes` / `read_bytes`. -/
inductive WasmAccessError where
  | memoryAccess : WasmAccessError
deriving DecidableEq

/-- Runtime primitive `Memory::write(store, offset, data)` called by
`WasmBackend::write_bytes`: the accessor of the external linear memory,
which bounds-checks the range against the whole memory only — it fails with
a `MemoryAccessError` when `offset + data.len()` exceeds the memory's data
size and copies the bytes otherwise.  It knows nothing of the engine's two
buffer regions. -/
def WasmMemory.write (mem : WasmMemory) (offset : Nat) (data : List Nat) :
    Except WasmAccessError WasmMemory :=
  if offset + data.length ≤ mem.size then
    .ok { mem with data := fun i =>
      if offset ≤ i ∧ i < offset + data.length then data.getD (i - offset) 0 else mem.data i }
  else .error .memoryAccess

/-- Runtime primitive `Memory::read(store, offset, buf)` called by
`WasmBackend::read_bytes`: the same whole-memory bounds check; on success it
fills the caller's buffer (here: returns the bytes read). -/
def WasmMemory.read (mem : WasmMemory) (offset len : Nat) :
    Except WasmAccessError (List Nat) :=
  if offset + len ≤ mem.size then
    .ok ((List.range len).map (fun i => mem.data (offset + i)))
  else .error .memoryAccess

/-- Trait method `WasmBackend::write_bytes(offset, data)` (main.rs): a
direct delegation to `self.memory.write(...)?` — the backend adds no check
of its own against the two buffer regions. -/
def WasmBackend.write_bytes (mem : WasmMemory) (offset : Nat) (data : List Nat) :
    Except WasmAccessError WasmMemory :=
  mem.write offset data

/-- Trait method `WasmBackend::read_bytes(offset, len)` (main.rs): allocates
`vec![0u8; len]` and fills it through `self.memory.read(...)?`, again with
no region check of its own. -/
def WasmBackend.read_bytes (mem : WasmMemory) (offset len : Nat) :
    Except WasmAccessError (List Nat) :=
  mem.read offset len

/-- Concrete linear memory for the C8 counterexample: zeroed, 131076 bytes —
large enough to hold both 65536-byte regions at offsets (0, 65536) (the
layout `WasmBackend::new` adopts for `wasmTinyMemory`) plus four bytes that
belong to neither region. -/
def wasmMemBig : WasmMemory :=
  { data := fun _ => 0
    size := 131076 }

theorem land_MASK (x : Nat) : x &&& MASK = x % BUFFER_SIZE := by
  have h := Nat.and_pow_two_sub_one_eq_mod x 16
  norm_num at h
  simpa [MASK, BUFFER_SIZE] using h

theorem BUFFER_SIZE_pos : 0 < BUFFER_SIZE := by norm_num [BUFFER_SIZE]

theorem mod_BUFFER_SIZE_lt (x : Nat) : x % BUFFER_SIZE < BUFFER_SIZE :=
  Nat.mod_lt _ BUFFER_SIZE_pos

@[simp] theorem setOut_buffer (k : NativeKernel) (i v : Nat) : (k.setOut i v).buffer = k.buffer := rfl

@[simp] theorem setOut_read_head (k : NativeKernel) (i v : Nat) : (k.setOut i v).read_head = k.read_head := rfl

@[simp] theorem setOut_write_head (k : NativeKernel) (i v : Nat) : (k.setOut i v).write_head = k.write_head := rfl

@[simp] theorem setOut_canary (k : NativeKernel) (i v : Nat) : (k.setOut i v).canary = k.canary := rfl

@[simp] theorem setOut_tail_canary (k : NativeKernel) (i v : Nat) : (k.setOut i v).tail_canary = k.tail_canary := rfl

@[simp] theorem setOut_output (k : NativeKernel) (i v : Nat) :
    (k.setOut i v).output_buffer = Function.update k.output_buffer i v := rfl

@[simp] theorem process_vector_at_buffer (F : NormFn) (k : NativeKernel) (idx : Nat) :
    (process_vector_at F k idx).buffer = k.buffer := rfl

@[simp] theorem process_vector_at_read_head (F : NormFn) (k : NativeKernel) (idx : Nat) :
    (process_vector_at F k idx).read_head = k.read_head := rfl

@[simp] theorem process_vector_at_write_head (F : NormFn) (k : NativeKernel) (idx : Nat) :
    (process_vector_at F k idx).write_head = k.write_head := rfl

@[simp] theorem process_vector_at_canary (F : NormFn) (k : NativeKernel) (idx : Nat) :
    (process_vector_at F k idx).canary = k.canary := rfl

@[simp] theorem process_vector_at_tail_canary (F : NormFn) (k : NativeKernel) (idx : Nat) :
    (process_vector_at F k idx).tail_canary = k.tail_canary := rfl

theorem process_vector_at_set_read_head (F : NormFn) (k : NativeKernel) (idx t : Nat) :
    process_vector_at F { k with read_head := t } idx
      = { process_vector_at F k idx with read_head := t } := rfl

@[simp] theorem process_vector_contig_buffer (F : NormFn) (k : NativeKernel) (idx : Nat) :
    (process_vector_contig F k idx).buffer = k.buffer := rfl

@[simp] theorem process_vector_contig_read_head (F : NormFn) (k : NativeKernel) (idx : Nat) :
    (process_vector_contig F k idx).read_head = k.read_head := rfl

@[simp] theorem process_vector_contig_write_head (F : NormFn) (k : NativeKernel) (idx : Nat) :
    (process_vector_contig F k idx).write_head = k.write_head := rfl

@[simp] theorem process_vector_contig_canary (F : NormFn) (k : NativeKernel) (idx : Nat) :
    (process_vector_contig F k idx).canary = k.canary := rfl

@[simp] theorem process_vector_contig_tail_canary (F : NormFn) (k : NativeKernel) (idx : Nat) :
    (process_vector_contig F k idx).tail_canary = k.tail_canary := rfl

theorem process_vector_contig_eq (F : NormFn) (k : NativeKernel) (idx : Nat)
    (h : idx + 2 < BUFFER_SIZE) :
    process_vector_contig F k idx = process_vector_at F k idx := by
  have h1 : (idx + 1) &&& MASK = idx + 1 := by
    rw [land_MASK]; exact Nat.mod_eq_of_lt (by omega)
  have h2 : (idx + 2) &&& MASK = idx + 2 := by
    rw [land_MASK]; exact Nat.mod_eq_of_lt (by omega)
  unfold process_vector_contig process_vector_at
  rw [h1, h2]

@[simp] theorem applyVectors_buffer (F : NormFn) (k : NativeKernel) (r m : Nat) :
    (applyVectors F k r m).buffer = k.buffer := by
  induction m with
  | zero => rfl
  | succ m ih => simp [applyVectors, ih]

@[simp] theorem applyVectors_read_head (F : NormFn) (k : NativeKernel) (r m : Nat) :
    (applyVectors F k r m).read_head = k.read_head := by
  induction m with
  | zero => rfl
  | succ m ih => simp [applyVectors, ih]

@[simp] theorem applyVectors_write_head (F : NormFn) (k : NativeKernel) (r m : Nat) :
    (applyVectors F k r m).write_head = k.write_head := by
  induction m with
  | zero => rfl
  | succ m ih => simp [applyVectors, ih]

@[simp] theorem applyVectors_canary (F : NormFn) (k : NativeKernel) (r m : Nat) :
    (applyVectors F k r m).canary = k.canary := by
  induction m with
  | zero => rfl
  | succ m ih => simp [applyVectors, ih]

@[simp] theorem applyVectors_tail_canary (F : NormFn) (k : NativeKernel) (r m : Nat) :
    (applyVectors F k r m).tail_canary = k.tail_canary := by
  induction m with
  | zero => rfl
  | succ m ih => simp [applyVectors, ih]

theorem kernel_ext {k1 k2 : NativeKernel} (hb : k1.buffer = k2.buffer)
    (ho : k1.output_buffer = k2.output_buffer) (hc : k1.canary = k2.canary)
    (ht : k1.tail_canary = k2.tail_canary) (hr : k1.read_head = k2.read_head)
    (hw : k1.write_head = k2.write_head) : k1 = k2 := by
  cases k1; cases k2; simp_all

theorem process_vector_at_output (F : NormFn) (k : NativeKernel) (idx : Nat) :
    (process_vector_at F k idx).output_buffer =
      Function.update
        (Function.update (Function.update k.output_buffer idx (vecOut F k idx).1)
          ((idx + 1) &&& MASK) (vecOut F k idx).2.1)
        ((idx + 2) &&& MASK) (vecOut F k idx).2.2 := rfl

theorem vecOut_buffer_congr (F : NormFn) {k1 k2 : NativeKernel} (h : k1.buffer = k2.buffer)
    (p : Nat) : vecOut F k1 p = vecOut F k2 p := by
  unfold vecOut
  rw [h]

theorem applyVectors_congr_io (F : NormFn) (k1 k2 : NativeKernel) (r m : Nat)
    (hb : k1.buffer = k2.buffer) (ho : k1.output_buffer = k2.output_buffer) :
    (applyVectors F k1 r m).output_buffer = (applyVectors F k2 r m).output_buffer := by
  induction m with
  | zero => exact ho
  | succ m ih =>
    show (process_vector_at F (applyVectors F k1 r m) _).output_buffer
      = (process_vector_at F (applyVectors F k2 r m) _).output_buffer
    rw [process_vector_at_output, process_vector_at_output, ih,
      @vecOut_buffer_congr F (applyVectors F k1 r m) (applyVectors F k2 r m)
        (by simp [hb]) ((r + 3 * m) % BUFFER_SIZE)]

theorem applyVectors_add (F : NormFn) (k : NativeKernel) (r a b : Nat) :
    applyVectors F k r (a + b)
      = applyVectors F (applyVectors F k r a) ((r + 3 * a) % BUFFER_SIZE) b := by
  induction b with
  | zero => rfl
  | succ b ih =>
    show applyVectors F k r ((a + b) + 1) = _
    rw [applyVectors, ih, applyVectors]
    congr 1
    rw [Nat.mod_add_mod]
    ring_nf

theorem processVecRangeMasked_eq (F : NormFn) (k : NativeKernel) (r m : Nat) :
    processVecRangeMasked F k r m = applyVectors F k r m := by
  induction m with
  | zero => rfl
  | succ m ih =>
    rw [processVecRangeMasked, ih, applyVectors, land_MASK, Nat.mul_comm]

theorem processContigRange_eq (F : NormFn) (k : NativeKernel) (base m : Nat)
    (h : base + 3 * m ≤ BUFFER_SIZE) :
    processContigRange F k base m = applyVectors F k base m := by
  induction m with
  | zero => rfl
  | succ m ih =>
    rw [processContigRange, ih (by omega), applyVectors,
      process_vector_contig_eq F _ _ (by omega),
      Nat.mod_eq_of_lt (show base + 3 * m < BUFFER_SIZE by omega)]

theorem simdChunks_eq (F : NormFn) (k : NativeKernel) (base q : Nat)
    (h : base + 48 * q ≤ BUFFER_SIZE) :
    simdChunks F k base q = applyVectors F k base (16 * q) := by
  induction q with
  | zero => rfl
  | succ q ih =>
    rw [simdChunks, ih (by omega),
      processContigRange_eq F _ _ 16 (by omega),
      show 16 * (q + 1) = 16 * q + 16 by ring, applyVectors_add,
      Nat.mod_eq_of_lt (show base + 3 * (16 * q) < BUFFER_SIZE by omega)]
    congr 2
    ring

theorem process_contiguous_chunk_simd_eq (F : NormFn) (k : NativeKernel) (base len : Nat)
    (hdvd : 48 ∣ len) (h : base + len ≤ BUFFER_SIZE) :
    process_contiguous_chunk_simd F k base len = applyVectors F k base (len / 3) := by
  obtain ⟨q, rfl⟩ := hdvd
  unfold process_contiguous_chunk_simd
  rw [Nat.mul_div_cancel_left q (by norm_num), Nat.mul_mod_right]
  simp only [Nat.zero_div, simdSubChunks]
  rw [simdChunks_eq F k base q (by omega)]
  congr 1
  omega

@[simp] theorem processContigRange_buffer (F : NormFn) (k : NativeKernel) (base m : Nat) :
    (processContigRange F k base m).buffer = k.buffer := by
  induction m with
  | zero => rfl
  | succ m ih => simp [processContigRange, ih]

@[simp] theorem processContigRange_read_head (F : NormFn) (k : NativeKernel) (base m : Nat) :
    (processContigRange F k base m).read_head = k.read_head := by
  induction m with
  | zero => rfl
  | succ m ih => simp [processContigRange, ih]

@[simp] theorem processContigRange_write_head (F : NormFn) (k : NativeKernel) (base m : Nat) :
    (processContigRange F k base m).write_head = k.write_head := by
  induction m with
  | zero => rfl
  | succ m ih => simp [processContigRange, ih]

@[simp] theorem processContigRange_canary (F : NormFn) (k : NativeKernel) (base m : Nat) :
    (processContigRange F k base m).canary = k.canary := by
  induction m with
  | zero => rfl
  | succ m ih => simp [processContigRange, ih]

@[simp] theorem processContigRange_tail_canary (F : NormFn) (k : NativeKernel) (base m : Nat) :
    (processContigRange F k base m).tail_canary = k.tail_canary := by
  induction m with
  | zero => rfl
  | succ m ih => simp [processContigRange, ih]

@[simp] theorem simdChunks_buffer (F : NormFn) (k : NativeKernel) (base q : Nat) :
    (simdChunks F k base q).buffer = k.buffer := by
  induction q with
  | zero => rfl
  | succ q ih => simp [simdChunks, ih]

@[simp] theorem simdChunks_read_head (F : NormFn) (k : NativeKernel) (base q : Nat) :
    (simdChunks F k base q).read_head = k.read_head := by
  induction q with
  | zero => rfl
  | succ q ih => simp [simdChunks, ih]

@[simp] theorem simdChunks_write_head (F : NormFn) (k : NativeKernel) (base q : Nat) :
    (simdChunks F k base q).write_head = k.write_head := by
  induction q with
  | zero => rfl
  | succ q ih => simp [simdChunks, ih]

@[simp] theorem simdChunks_canary (F : NormFn) (k : NativeKernel) (base q : Nat) :
    (simdChunks F k base q).canary = k.canary := by
  induction q with
  | zero => rfl
  | succ q ih => simp [simdChunks, ih]

@[simp] theorem simdChunks_tail_canary (F : NormFn) (k : NativeKernel) (base q : Nat) :
    (simdChunks F k base q).tail_canary = k.tail_canary := by
  induction q with
  | zero => rfl
  | succ q ih => simp [simdChunks, ih]

@[simp] theorem simdSubChunks_buffer (F : NormFn) (k : NativeKernel) (base q : Nat) :
    (simdSubChunks F k base q).buffer = k.buffer := by
  induction q with
  | zero => rfl
  | succ q ih => simp [simdSubChunks, ih]

@[simp] theorem simdSubChunks_read_head (F : NormFn) (k : NativeKernel) (base q : Nat) :
    (simdSubChunks F k base q).read_head = k.read_head := by
  induction q with
  | zero => rfl
  | succ q ih => simp [simdSubChunks, ih]

@[simp] theorem simdSubChunks_write_head (F : NormFn) (k : NativeKernel) (base q : Nat) :
    (simdSubChunks F k base q).write_head = k.write_head := by
  induction q with
  | zero => rfl
  | succ q ih => simp [simdSubChunks, ih]

@[simp] theorem simdSubChunks_canary (F : NormFn) (k : NativeKernel) (base q : Nat) :
    (simdSubChunks F k base q).canary = k.canary := by
  induction q with
  | zero => rfl
  | succ q ih => simp [simdSubChunks, ih]

@[simp] theorem simdSubChunks_tail_canary (F : NormFn) (k : NativeKernel) (base q : Nat) :
    (simdSubChunks F k base q).tail_canary = k.tail_canary := by
  induction q with
  | zero => rfl
  | succ q ih => simp [simdSubChunks, ih]

@[simp] theorem chunk_simd_buffer (F : NormFn) (k : NativeKernel) (base len : Nat) :
    (process_contiguous_chunk_simd F k base len).buffer = k.buffer := by
  simp [process_contiguous_chunk_simd]

@[simp] theorem chunk_simd_read_head (F : NormFn) (k : NativeKernel) (base len : Nat) :
    (process_contiguous_chunk_simd F k base len).read_head = k.read_head := by
  simp [process_contiguous_chunk_simd]

@[simp] theorem chunk_simd_write_head (F : NormFn) (k : NativeKernel) (base len : Nat) :
    (process_contiguous_chunk_simd F k base len).write_head = k.write_head := by
  simp [process_contiguous_chunk_simd]

@[simp] theorem chunk_simd_canary (F : NormFn) (k : NativeKernel) (base len : Nat) :
    (process_contiguous_chunk_simd F k base len).canary = k.canary := by
  simp [process_contiguous_chunk_simd]

@[simp] theorem chunk_simd_tail_canary (F : NormFn) (k : NativeKernel) (base len : Nat) :
    (process_contiguous_chunk_simd F k base len).tail_canary = k.tail_canary := by
  simp [process_contiguous_chunk_simd]

@[simp] theorem processVecRangeMasked_buffer (F : NormFn) (k : NativeKernel) (r m : Nat) :
    (processVecRangeMasked F k r m).buffer = k.buffer := by
  rw [processVecRangeMasked_eq]; simp

@[simp] theorem processVecRangeMasked_read_head (F : NormFn) (k : NativeKernel) (r m : Nat) :
    (processVecRangeMasked F k r m).read_head = k.read_head := by
  rw [processVecRangeMasked_eq]; simp

@[simp] theorem processVecRangeMasked_write_head (F : NormFn) (k : NativeKernel) (r m : Nat) :
    (processVecRangeMasked F k r m).write_head = k.write_head := by
  rw [processVecRangeMasked_eq]; simp

@[simp] theorem processVecRangeMasked_canary (F : NormFn) (k : NativeKernel) (r m : Nat) :
    (processVecRangeMasked F k r m).canary = k.canary := by
  rw [processVecRangeMasked_eq]; simp

@[simp] theorem processVecRangeMasked_tail_canary (F : NormFn) (k : NativeKernel) (r m : Nat) :
    (processVecRangeMasked F k r m).tail_canary = k.tail_canary := by
  rw [processVecRangeMasked_eq]; simp

theorem stream_branch_combine (F : NormFn) (k K' : NativeKernel) (chunk w v' : Nat)
    (hw : 3 * w = chunk)
    (hKb : K'.buffer = k.buffer)
    (hKo : K'.output_buffer = (applyVectors F k k.read_head w).output_buffer)
    (hKc : K'.canary = k.canary) (hKt : K'.tail_canary = k.tail_canary)
    (hKw : K'.write_head = k.write_head)
    (hKr : K'.read_head = (k.read_head + chunk) % BUFFER_SIZE) :
    (⟨K'.buffer, (applyVectors F K' K'.read_head v').output_buffer, K'.canary, K'.tail_canary,
      (K'.read_head + 3 * v') % BUFFER_SIZE, K'.write_head⟩ : NativeKernel)
      = ⟨k.buffer, (applyVectors F k k.read_head (w + v')).output_buffer, k.canary, k.tail_canary,
         (k.read_head + 3 * (w + v')) % BUFFER_SIZE, k.write_head⟩ := by
  have hout : (applyVectors F K' K'.read_head v').output_buffer
      = (applyVectors F k k.read_head (w + v')).output_buffer := by
    rw [applyVectors_add]
    have hsame : K'.read_head = (k.read_head + 3 * w) % BUFFER_SIZE := by rw [hKr, hw]
    rw [hsame]
    exact applyVectors_congr_io F K' (applyVectors F k k.read_head w)
      ((k.read_head + 3 * w) % BUFFER_SIZE) v' (by rw [hKb]; simp) (by rw [hKo])
  have hread : (K'.read_head + 3 * v') % BUFFER_SIZE
      = (k.read_head + 3 * (w + v')) % BUFFER_SIZE := by
    rw [hKr, Nat.mod_add_mod]
    congr 1
    omega
  rw [hKb, hKc, hKt, hKw, hout, hread]

theorem streamMainLoop_spec (F : NormFn) :
    ∀ (fuel remaining : Nat) (k : NativeKernel) (processed : Nat),
    remaining ≤ fuel → k.read_head < BUFFER_SIZE →
    ∃ v, 3 * v ≤ remaining ∧ remaining - 3 * v < 48 ∧
      streamMainLoop F fuel k remaining processed =
        (⟨k.buffer, (applyVectors F k k.read_head v).output_buffer, k.canary, k.tail_canary,
          (k.read_head + 3 * v) % BUFFER_SIZE, k.write_head⟩,
         remaining - 3 * v, processed + 3 * v) := by
  intro fuel
  induction fuel with
  | zero =>
    intro remaining k processed hle hr
    obtain rfl : remaining = 0 := by omega
    refine ⟨0, by omega, by omega, ?_⟩
    simp [streamMainLoop, applyVectors, Nat.mod_eq_of_lt hr]
  | succ fuel ih =>
    intro remaining k processed hle hr
    by_cases h48 : 48 ≤ remaining
    · by_cases hb1 : 48 ≤ BUFFER_SIZE - k.read_head
          ∧ 0 < min remaining (BUFFER_SIZE - k.read_head) / 48 * 48
      · -- contiguous SIMD branch
        have hmin : 48 ≤ min remaining (BUFFER_SIZE - k.read_head) := le_min h48 hb1.1
        have hch48 : 48 ≤ min remaining (BUFFER_SIZE - k.read_head) / 48 * 48 := by omega
        have hchler : min remaining (BUFFER_SIZE - k.read_head) / 48 * 48 ≤ remaining := by omega
        have hchlec : min remaining (BUFFER_SIZE - k.read_head) / 48 * 48
            ≤ BUFFER_SIZE - k.read_head := by omega
        have hdvd : 48 ∣ min remaining (BUFFER_SIZE - k.read_head) / 48 * 48 :=
          Dvd.intro_left _ rfl
        have h3dvd : 3 ∣ min remaining (BUFFER_SIZE - k.read_head) / 48 * 48 :=
          dvd_trans (by norm_num) hdvd
        have hrc : k.read_head + min remaining (BUFFER_SIZE - k.read_head) / 48 * 48
            ≤ BUFFER_SIZE := by omega
        have hsimd := process_contiguous_chunk_simd_eq F k k.read_head
          (min remaining (BUFFER_SIZE - k.read_head) / 48 * 48) hdvd hrc
        have hstep : streamMainLoop F (fuel + 1) k remaining processed
            = streamMainLoop F fuel
                { process_contiguous_chunk_simd F k k.read_head
                    (min remaining (BUFFER_SIZE - k.read_head) / 48 * 48) with
                  read_head := (k.read_head
                    + min remaining (BUFFER_SIZE - k.read_head) / 48 * 48) &&& MASK }
                (remaining - min remaining (BUFFER_SIZE - k.read_head) / 48 * 48)
                (processed + min remaining (BUFFER_SIZE - k.read_head) / 48 * 48) := by
          simp only [streamMainLoop]
          rw [if_pos h48, if_pos hb1]
        obtain ⟨v', hv1, hv2, heq⟩ := ih
          (remaining - min remaining (BUFFER_SIZE - k.read_head) / 48 * 48)
          { process_contiguous_chunk_simd F k k.read_head
              (min remaining (BUFFER_SIZE - k.read_head) / 48 * 48) with
            read_head := (k.read_head
              + min remaining (BUFFER_SIZE - k.read_head) / 48 * 48) &&& MASK }
          (processed + min remaining (BUFFER_SIZE - k.read_head) / 48 * 48)
          (by omega)
          (by simp [land_MASK, mod_BUFFER_SIZE_lt])
        refine ⟨min remaining (BUFFER_SIZE - k.read_head) / 48 * 48 / 3 + v', by omega, by omega, ?_⟩
        rw [hstep, heq]
        have hcomb := stream_branch_combine F k
          { process_contiguous_chunk_simd F k k.read_head
              (min remaining (BUFFER_SIZE - k.read_head) / 48 * 48) with
            read_head := (k.read_head
              + min remaining (BUFFER_SIZE - k.read_head) / 48 * 48) &&& MASK }
          (min remaining (BUFFER_SIZE - k.read_head) / 48 * 48)
          (min remaining (BUFFER_SIZE - k.read_head) / 48 * 48 / 3) v'
          (by omega)
          (by simp)
          (by simp only [hsimd])
          (by simp) (by simp) (by simp)
          (by simp [land_MASK])
        rw [Prod.mk.injEq, Prod.mk.injEq]
        refine ⟨hcomb, by omega, by omega⟩
      · by_cases hb2 : BUFFER_SIZE - k.read_head < 48 ∧ 12 ≤ BUFFER_SIZE - k.read_head
        · -- split-boundary branch: 12-aligned prefix of the contiguous tail
          have hch12 : 12 ≤ (BUFFER_SIZE - k.read_head) / 12 * 12 := by omega
          have hchlec : (BUFFER_SIZE - k.read_head) / 12 * 12 ≤ BUFFER_SIZE - k.read_head := by
            omega
          have hchler : (BUFFER_SIZE - k.read_head) / 12 * 12 ≤ remaining := by omega
          have hstep : streamMainLoop F (fuel + 1) k remaining processed
              = streamMainLoop F fuel
                  { processVecRangeMasked F k k.read_head
                      ((BUFFER_SIZE - k.read_head) / 12 * 12 / 3) with
                    read_head := (k.read_head
                      + (BUFFER_SIZE - k.read_head) / 12 * 12) &&& MASK }
                  (remaining - (BUFFER_SIZE - k.read_head) / 12 * 12)
                  (processed + (BUFFER_SIZE - k.read_head) / 12 * 12) := by
            simp only [streamMainLoop]
            rw [if_pos h48, if_neg hb1, if_pos hb2]
          obtain ⟨v', hv1, hv2, heq⟩ := ih
            (remaining - (BUFFER_SIZE - k.read_head) / 12 * 12)
            { processVecRangeMasked F k k.read_head
                ((BUFFER_SIZE - k.read_head) / 12 * 12 / 3) with
              read_head := (k.read_head + (BUFFER_SIZE - k.read_head) / 12 * 12) &&& MASK }
            (processed + (BUFFER_SIZE - k.read_head) / 12 * 12)
            (by omega)
            (by simp [land_MASK, mod_BUFFER_SIZE_lt])
          refine ⟨(BUFFER_SIZE - k.read_head) / 12 * 12 / 3 + v', by omega, by omega, ?_⟩
          rw [hstep, heq]
          have hcomb := stream_branch_combine F k
            { processVecRangeMasked F k k.read_head
                ((BUFFER_SIZE - k.read_head) / 12 * 12 / 3) with
              read_head := (k.read_head + (BUFFER_SIZE - k.read_head) / 12 * 12) &&& MASK }
            ((BUFFER_SIZE - k.read_head) / 12 * 12)
            ((BUFFER_SIZE - k.read_head) / 12 * 12 / 3) v'
            (by omega)
            (by simp)
            (by simp only [processVecRangeMasked_eq])
            (by simp) (by simp) (by simp)
            (by simp [land_MASK])
          rw [Prod.mk.injEq, Prod.mk.injEq]
          refine ⟨hcomb, by omega, by omega⟩
        · -- wrapped-data branch: four masked vectors
          have h12 : 12 ≤ remaining := by omega
          have hstep : streamMainLoop F (fuel + 1) k remaining processed
              = streamMainLoop F fuel
                  { processVecRangeMasked F k k.read_head 4 with
                    read_head := (k.read_head + 12) &&& MASK }
                  (remaining - 12) (processed + 12) := by
            simp only [streamMainLoop]
            rw [if_pos h48, if_neg hb1, if_neg hb2, if_pos h12]
          obtain ⟨v', hv1, hv2, heq⟩ := ih (remaining - 12)
            { processVecRangeMasked F k k.read_head 4 with
              read_head := (k.read_head + 12) &&& MASK }
            (processed + 12)
            (by omega)
            (by simp [land_MASK, mod_BUFFER_SIZE_lt])
          refine ⟨4 + v', by omega, by omega, ?_⟩
          rw [hstep, heq]
          have hcomb := stream_branch_combine F k
            { processVecRangeMasked F k k.read_head 4 with
              read_head := (k.read_head + 12) &&& MASK }
            12 4 v'
            (by norm_num)
            (by simp)
            (by simp only [processVecRangeMasked_eq])
            (by simp) (by simp) (by simp)
            (by simp [land_MASK])
          rw [Prod.mk.injEq, Prod.mk.injEq]
          refine ⟨hcomb, by omega, by omega⟩
    · refine ⟨0, by omega, by omega, ?_⟩
      simp only [streamMainLoop]
      rw [if_neg h48]
      simp [applyVectors, Nat.mod_eq_of_lt hr]

theorem streamCleanup_spec (F : NormFn) :
    ∀ (fuel remaining : Nat) (k : NativeKernel) (processed : Nat),
    remaining ≤ fuel → k.read_head < BUFFER_SIZE →
    streamCleanup F fuel k remaining processed =
      (⟨k.buffer, (applyVectors F k k.read_head (remaining / 3)).output_buffer, k.canary,
        k.tail_canary, (k.read_head + 3 * (remaining / 3)) % BUFFER_SIZE, k.write_head⟩,
       processed + 3 * (remaining / 3)) := by
  intro fuel
  induction fuel with
  | zero =>
    intro remaining k processed hle hr
    obtain rfl : remaining = 0 := by omega
    simp [streamCleanup, applyVectors, Nat.mod_eq_of_lt hr]
  | succ fuel ih =>
    intro remaining k processed hle hr
    by_cases h3 : 3 ≤ remaining
    · have hstep : streamCleanup F (fuel + 1) k remaining processed
          = streamCleanup F fuel
              { process_vector_at F k k.read_head with read_head := (k.read_head + 3) &&& MASK }
              (remaining - 3) (processed + 3) := by
        simp only [streamCleanup]
        rw [if_pos h3]
      have heq := ih (remaining - 3)
        { process_vector_at F k k.read_head with read_head := (k.read_head + 3) &&& MASK }
        (processed + 3)
        (by omega)
        (by simp [land_MASK, mod_BUFFER_SIZE_lt])
      rw [hstep, heq]
      have hcomb := stream_branch_combine F k
        { process_vector_at F k k.read_head with read_head := (k.read_head + 3) &&& MASK }
        3 1 ((remaining - 3) / 3)
        (by norm_num)
        (by simp)
        (by show (process_vector_at F k k.read_head).output_buffer = _
            simp [applyVectors, Nat.mod_eq_of_lt hr])
        (by simp) (by simp) (by simp)
        (by simp [land_MASK])
      have hq : 1 + (remaining - 3) / 3 = remaining / 3 := by omega
      rw [hq] at hcomb
      rw [Prod.mk.injEq]
      refine ⟨hcomb, by omega⟩
    · have hstep : streamCleanup F (fuel + 1) k remaining processed = (k, processed) := by
        simp only [streamCleanup]
        rw [if_neg h3]
      have hq : remaining / 3 = 0 := by omega
      rw [hstep, hq]
      simp [applyVectors, Nat.mod_eq_of_lt hr]

theorem process_tensor_stream_spec (F : NormFn) (k : NativeKernel)
    (hr : k.read_head < BUFFER_SIZE) (hc : k.canary = 0xAA) (ht : k.tail_canary = 0x55) :
    process_tensor_stream F k =
      some (⟨k.buffer, (applyVectors F k k.read_head (k.diff / 3)).output_buffer, k.canary,
             k.tail_canary, (k.read_head + (k.diff - k.diff % 3)) % BUFFER_SIZE, k.write_head⟩,
            k.diff - k.diff % 3) := by
  have hguard : ¬ (k.canary ≠ 0xAA ∨ k.tail_canary ≠ 0x55) := by simp [hc, ht]
  by_cases hav : k.diff < 3
  · have h0 : k.diff - k.diff % 3 = 0 := by omega
    have h03 : k.diff / 3 = 0 := by omega
    simp only [process_tensor_stream]
    rw [if_neg hguard, if_pos hav, h0, h03]
    simp only [applyVectors, Nat.add_zero, Nat.mod_eq_of_lt hr, Option.some.injEq,
      Prod.mk.injEq]
  · simp only [process_tensor_stream]
    rw [if_neg hguard, if_neg hav]
    obtain ⟨v, hv1, hv2, heqM⟩ := streamMainLoop_spec F k.diff k.diff k 0 (le_refl _) hr
    rw [heqM]
    have heqC := streamCleanup_spec F (k.diff - 3 * v) (k.diff - 3 * v)
      ⟨k.buffer, (applyVectors F k k.read_head v).output_buffer, k.canary, k.tail_canary,
        (k.read_head + 3 * v) % BUFFER_SIZE, k.write_head⟩
      (0 + 3 * v) (le_refl _) (mod_BUFFER_SIZE_lt _)
    rw [heqC]
    have hcomb := stream_branch_combine F k
      ⟨k.buffer, (applyVectors F k k.read_head v).output_buffer, k.canary, k.tail_canary,
        (k.read_head + 3 * v) % BUFFER_SIZE, k.write_head⟩
      (3 * v) v ((k.diff - 3 * v) / 3)
      rfl rfl rfl rfl rfl rfl rfl
    have hq : v + (k.diff - 3 * v) / 3 = k.diff / 3 := by omega
    rw [hq] at hcomb
    have hq2 : (k.read_head + 3 * (k.diff / 3)) % BUFFER_SIZE
        = (k.read_head + (k.diff - k.diff % 3)) % BUFFER_SIZE := by
      congr 1
      omega
    rw [hq2] at hcomb
    rw [Option.some.injEq, Prod.mk.injEq]
    refine ⟨hcomb, by omega⟩

/-- C1: for every well-formed kernel state (head in range, canaries intact),
`process_tensor_stream` consumes all currently available whole vectors:
with `available = diff()`, it returns exactly `available - available % 3`
(a multiple of 3, possibly 0), advances `read_head` by exactly that count
modulo the capacity, and writes the per-vector normalisation results to the
output region at the same relative offsets (`applyVectors` applies the
source's `process_vector_at` to vector `j` at offset `read_head + 3j`,
reduced modulo the capacity); the input region, `write_head` and the
canaries are untouched.  In particular, when 0 bytes are available the call
returns 0 and leaves `read_head` (indeed the whole state) unchanged. -/
theorem C1_process_stream_consumes_all (F : NormFn) (k : NativeKernel)
    (hr : k.read_head < BUFFER_SIZE) (hc : k.canary = 0xAA) (ht : k.tail_canary = 0x55) :
    process_tensor_stream F k =
      some (⟨k.buffer, (applyVectors F k k.read_head (k.diff / 3)).output_buffer, k.canary,
             k.tail_canary, (k.read_head + (k.diff - k.diff % 3)) % BUFFER_SIZE, k.write_head⟩,
            k.diff - k.diff % 3)
    ∧ (k.diff = 0 → process_tensor_stream F k = some (k, 0)) := by
  refine ⟨process_tensor_stream_spec F k hr hc ht, fun h0 => ?_⟩
  rw [process_tensor_stream_spec F k hr hc ht, h0]
  simp [applyVectors, Nat.mod_eq_of_lt hr]

/-- Witness for C1 at the concrete state `kC1` (7 bytes available, so 6 are
consumed), with every hypothesis discharged. -/
theorem C1_witness :
    kC1.read_head < BUFFER_SIZE ∧ kC1.canary = 0xAA ∧ kC1.tail_canary = 0x55 ∧
    (process_tensor_stream F0 kC1 =
      some (⟨kC1.buffer, (applyVectors F0 kC1 kC1.read_head (kC1.diff / 3)).output_buffer,
             kC1.canary, kC1.tail_canary,
             (kC1.read_head + (kC1.diff - kC1.diff % 3)) % BUFFER_SIZE, kC1.write_head⟩,
            kC1.diff - kC1.diff % 3)
     ∧ (kC1.diff = 0 → process_tensor_stream F0 kC1 = some (kC1, 0))) :=
  ⟨by decide, rfl, rfl, C1_process_stream_consumes_all F0 kC1 (by decide) rfl rfl⟩

theorem diff_lt (k : NativeKernel) (hr : k.read_head < BUFFER_SIZE)
    (hw : k.write_head < BUFFER_SIZE) : k.diff < BUFFER_SIZE := by
  unfold NativeKernel.diff
  split <;> omega

theorem mod_window_ne (r a b : Nat) (hab : a < b) (hb : b < BUFFER_SIZE) :
    (r + a) % BUFFER_SIZE ≠ (r + b) % BUFFER_SIZE := by
  intro h
  simp only [BUFFER_SIZE] at h hb
  omega

theorem applyVectors_first_vec (F : NormFn) (k : NativeKernel) (r : Nat)
    (hr : r < BUFFER_SIZE) :
    ∀ (m : Nat), 1 ≤ m → 3 * m ≤ BUFFER_SIZE → ∀ c, c < 3 →
    (applyVectors F k r m).output_buffer ((r + c) % BUFFER_SIZE)
      = (applyVectors F k r 1).output_buffer ((r + c) % BUFFER_SIZE) := by
  intro m
  induction m with
  | zero => omega
  | succ m ih =>
    intro _ hM c hc
    rcases Nat.eq_zero_or_pos m with rfl | hm
    · rfl
    · rw [applyVectors, process_vector_at_output]
      have hmod : ((r + 3 * m) % BUFFER_SIZE + 1) &&& MASK
          = (r + (3 * m + 1)) % BUFFER_SIZE := by
        rw [land_MASK, Nat.mod_add_mod, Nat.add_assoc]
      have hmod2 : ((r + 3 * m) % BUFFER_SIZE + 2) &&& MASK
          = (r + (3 * m + 2)) % BUFFER_SIZE := by
        rw [land_MASK, Nat.mod_add_mod, Nat.add_assoc]
      rw [hmod, hmod2]
      have hne0 : (r + c) % BUFFER_SIZE ≠ (r + 3 * m) % BUFFER_SIZE :=
        mod_window_ne r c (3 * m) (by omega) (by omega)
      have hne1 : (r + c) % BUFFER_SIZE ≠ (r + (3 * m + 1)) % BUFFER_SIZE :=
        mod_window_ne r c (3 * m + 1) (by omega) (by omega)
      have hne2 : (r + c) % BUFFER_SIZE ≠ (r + (3 * m + 2)) % BUFFER_SIZE :=
        mod_window_ne r c (3 * m + 2) (by omega) (by omega)
      rw [Function.update_noteq hne2, Function.update_noteq hne1,
        Function.update_noteq hne0]
      exact ih hm (by omega) c hc

/-- C2 (amended): a zero input triple passes through the normalisation
branch unchanged, but the visualisation rescale `(c * 100 + 100) as u8` is
still applied to it, so after `process_tensor_stream` consumes the vector at
`read_head` the three output bytes at its offset are (100, 100, 100) — not
the input bytes (0, 0, 0). -/
theorem C2_zero_triple_amended (F : NormFn) (k : NativeKernel)
    (hr : k.read_head < BUFFER_SIZE) (hw : k.write_head < BUFFER_SIZE)
    (hc : k.canary = 0xAA) (ht : k.tail_canary = 0x55) (h3 : 3 ≤ k.diff)
    (hx : k.buffer k.read_head = 0)
    (hy : k.buffer ((k.read_head + 1) % BUFFER_SIZE) = 0)
    (hz : k.buffer ((k.read_head + 2) % BUFFER_SIZE) = 0) :
    (process_tensor_stream F k).map (fun p =>
        (p.1.output_buffer k.read_head,
         p.1.output_buffer ((k.read_head + 1) % BUFFER_SIZE),
         p.1.output_buffer ((k.read_head + 2) % BUFFER_SIZE)))
      = some (100, 100, 100) := by
  have hdlt := diff_lt k hr hw
  have hm1 : 1 ≤ k.diff / 3 := by omega
  have hm3 : 3 * (k.diff / 3) ≤ BUFFER_SIZE := by omega
  have h2lt : (2 : Nat) < BUFFER_SIZE := by norm_num [BUFFER_SIZE]
  have h0 := applyVectors_first_vec F k k.read_head hr (k.diff / 3) hm1 hm3 0 (by norm_num)
  have h1 := applyVectors_first_vec F k k.read_head hr (k.diff / 3) hm1 hm3 1 (by norm_num)
  have h2 := applyVectors_first_vec F k k.read_head hr (k.diff / 3) hm1 hm3 2 (by norm_num)
  rw [Nat.add_zero, Nat.mod_eq_of_lt hr] at h0
  have hone : applyVectors F k k.read_head 1 = process_vector_at F k k.read_head := by
    simp [applyVectors, Nat.mod_eq_of_lt hr]
  have hval : vecOut F k k.read_head = (100, 100, 100) := by
    unfold vecOut
    simp only [land_MASK]
    rw [hx, hy, hz]
    norm_num [u8cast]
  have q01 : k.read_head ≠ (k.read_head + 1) % BUFFER_SIZE := by
    have := mod_window_ne k.read_head 0 1 (by norm_num) (by omega)
    simpa [Nat.mod_eq_of_lt hr] using this
  have q02 : k.read_head ≠ (k.read_head + 2) % BUFFER_SIZE := by
    have := mod_window_ne k.read_head 0 2 (by norm_num) (by omega)
    simpa [Nat.mod_eq_of_lt hr] using this
  have q12 : (k.read_head + 1) % BUFFER_SIZE ≠ (k.read_head + 2) % BUFFER_SIZE :=
    mod_window_ne k.read_head 1 2 (by norm_num) (by omega)
  have hout : (process_vector_at F k k.read_head).output_buffer k.read_head = 100
      ∧ (process_vector_at F k k.read_head).output_buffer ((k.read_head + 1) % BUFFER_SIZE) = 100
      ∧ (process_vector_at F k k.read_head).output_buffer ((k.read_head + 2) % BUFFER_SIZE) = 100 := by
    rw [process_vector_at_output]
    rw [show (k.read_head + 1) &&& MASK = (k.read_head + 1) % BUFFER_SIZE from land_MASK _,
      show (k.read_head + 2) &&& MASK = (k.read_head + 2) % BUFFER_SIZE from land_MASK _, hval]
    refine ⟨?_, ?_, ?_⟩
    · rw [Function.update_noteq q02, Function.update_noteq q01, Function.update_same]
    · rw [Function.update_noteq q12, Function.update_same]
    · rw [Function.update_same]
  rw [process_tensor_stream_spec F k hr hc ht]
  simp only [Option.map_some']
  rw [Option.some.injEq]
  show ((applyVectors F k k.read_head (k.diff / 3)).output_buffer k.read_head, _, _) = _
  rw [h0, h1, h2, hone]
  rw [Prod.mk.injEq, Prod.mk.injEq]
  exact ⟨hout.1, hout.2.1, hout.2.2⟩

/-- C2 counterexample: on the zero vector the per-vector transform does not
write the input bytes back; processing the concrete kernel `kZero3` (input
triple (0,0,0) announced) leaves output bytes (100, 100, 100), which differ
from the input bytes (0, 0, 0) stated by the claim. -/
theorem C2_counterexample :
    (process_tensor_stream F0 kZero3).map (fun p =>
        (p.1.output_buffer 0, p.1.output_buffer 1, p.1.output_buffer 2))
      = some (100, 100, 100)
    ∧ ((100, 100, 100) : Nat × Nat × Nat) ≠ (0, 0, 0) :=
  ⟨by decide, by decide⟩

/-- Witness for the amended C2 at the concrete state `kZero3`, with every
hypothesis discharged. -/
theorem C2_witness :
    kZero3.read_head < BUFFER_SIZE ∧ 3 ≤ kZero3.diff ∧
    (process_tensor_stream F0 kZero3).map (fun p =>
        (p.1.output_buffer kZero3.read_head,
         p.1.output_buffer ((kZero3.read_head + 1) % BUFFER_SIZE),
         p.1.output_buffer ((kZero3.read_head + 2) % BUFFER_SIZE)))
      = some (100, 100, 100) :=
  ⟨by decide, by decide,
    C2_zero_triple_amended F0 kZero3 (by decide) (by decide) rfl rfl (by decide) rfl rfl rfl⟩

theorem head_pos_ne (r a : Nat) (hr : r < BUFFER_SIZE) (ha : 0 < a) (hab : a < BUFFER_SIZE) :
    r ≠ (r + a) % BUFFER_SIZE := by
  have := mod_window_ne r 0 a ha hab
  simpa [Nat.mod_eq_of_lt hr] using this

@[simp] theorem addVecStep_buffer (k : NativeKernel) (r : Nat) :
    (addVecStep k r).buffer = k.buffer := rfl

@[simp] theorem addVecStep_read_head (k : NativeKernel) (r : Nat) :
    (addVecStep k r).read_head = k.read_head := rfl

@[simp] theorem addVecStep_write_head (k : NativeKernel) (r : Nat) :
    (addVecStep k r).write_head = k.write_head := rfl

@[simp] theorem addVecStep_canary (k : NativeKernel) (r : Nat) :
    (addVecStep k r).canary = k.canary := rfl

@[simp] theorem addVecStep_tail_canary (k : NativeKernel) (r : Nat) :
    (addVecStep k r).tail_canary = k.tail_canary := rfl

theorem addVecStep_output (k : NativeKernel) (r : Nat) (hr : r < BUFFER_SIZE) (i : Nat) :
    (addVecStep k r).output_buffer i =
      if i = r ∨ i = (r + 1) % BUFFER_SIZE ∨ i = (r + 2) % BUFFER_SIZE
      then satAddU8 (k.output_buffer i) (k.buffer i)
      else k.output_buffer i := by
  have h1lt : (1 : Nat) < BUFFER_SIZE := by norm_num [BUFFER_SIZE]
  have h2lt : (2 : Nat) < BUFFER_SIZE := by norm_num [BUFFER_SIZE]
  have q01 : r ≠ (r + 1) % BUFFER_SIZE := head_pos_ne r 1 hr (by norm_num) h1lt
  have q02 : r ≠ (r + 2) % BUFFER_SIZE := head_pos_ne r 2 hr (by norm_num) h2lt
  have q12 : (r + 1) % BUFFER_SIZE ≠ (r + 2) % BUFFER_SIZE :=
    mod_window_ne r 1 2 (by norm_num) h2lt
  unfold addVecStep
  simp only [setOut_output, setOut_buffer, land_MASK]
  rw [Function.update_noteq (Ne.symm q01), Function.update_noteq (Ne.symm q12),
    Function.update_noteq (Ne.symm q02)]
  by_cases h2 : i = (r + 2) % BUFFER_SIZE
  · subst h2
    rw [Function.update_same, if_pos (Or.inr (Or.inr rfl))]
  · rw [Function.update_noteq h2]
    by_cases h1 : i = (r + 1) % BUFFER_SIZE
    · subst h1
      rw [Function.update_same, if_pos (Or.inr (Or.inl rfl))]
    · rw [Function.update_noteq h1]
      by_cases h0 : i = r
      · subst h0
        rw [Function.update_same, if_pos (Or.inl rfl)]
      · rw [Function.update_noteq h0, if_neg (by tauto)]

theorem addSteps_add (a b : Nat) :
    ∀ (k : NativeKernel) (idx : Nat),
    addSteps (a + b) k idx = addSteps b (addSteps a k idx).1 (addSteps a k idx).2 := by
  induction a with
  | zero => intro k idx; rw [Nat.zero_add]; rfl
  | succ a ih =>
    intro k idx
    rw [Nat.succ_add]
    simp only [addSteps]
    exact ih _ _

theorem addSteps_buffer : ∀ (m : Nat) (k : NativeKernel) (idx : Nat),
    (addSteps m k idx).1.buffer = k.buffer := by
  intro m
  induction m with
  | zero => intro k idx; rfl
  | succ m ih => intro k idx; rw [addSteps, ih]; simp

theorem addSteps_read_head : ∀ (m : Nat) (k : NativeKernel) (idx : Nat),
    (addSteps m k idx).1.read_head = k.read_head := by
  intro m
  induction m with
  | zero => intro k idx; rfl
  | succ m ih => intro k idx; rw [addSteps, ih]; simp

theorem addSteps_write_head : ∀ (m : Nat) (k : NativeKernel) (idx : Nat),
    (addSteps m k idx).1.write_head = k.write_head := by
  intro m
  induction m with
  | zero => intro k idx; rfl
  | succ m ih => intro k idx; rw [addSteps, ih]; simp

theorem addSteps_canary : ∀ (m : Nat) (k : NativeKernel) (idx : Nat),
    (addSteps m k idx).1.canary = k.canary := by
  intro m
  induction m with
  | zero => intro k idx; rfl
  | succ m ih => intro k idx; rw [addSteps, ih]; simp

theorem addSteps_tail_canary : ∀ (m : Nat) (k : NativeKernel) (idx : Nat),
    (addSteps m k idx).1.tail_canary = k.tail_canary := by
  intro m
  induction m with
  | zero => intro k idx; rfl
  | succ m ih => intro k idx; rw [addSteps, ih]; simp

theorem addSteps_cursor : ∀ (m : Nat) (k : NativeKernel) (r : Nat), r < BUFFER_SIZE →
    (addSteps m k r).2 = (r + 3 * m) % BUFFER_SIZE := by
  intro m
  induction m with
  | zero =>
    intro k r hr
    simp [addSteps, Nat.mod_eq_of_lt hr]
  | succ m ih =>
    intro k r hr
    rw [addSteps, ih _ _ (by rw [land_MASK]; exact mod_BUFFER_SIZE_lt _), land_MASK,
      Nat.mod_add_mod]
    congr 1
    omega

theorem addSteps_output : ∀ (m : Nat) (k : NativeKernel) (r : Nat),
    r < BUFFER_SIZE → 3 * m ≤ BUFFER_SIZE → ∀ i,
    ((∃ j, j < 3 * m ∧ (r + j) % BUFFER_SIZE = i) →
        (addSteps m k r).1.output_buffer i = satAddU8 (k.output_buffer i) (k.buffer i))
    ∧ ((¬ ∃ j, j < 3 * m ∧ (r + j) % BUFFER_SIZE = i) →
        (addSteps m k r).1.output_buffer i = k.output_buffer i) := by
  intro m
  induction m with
  | zero =>
    intro k r hr hM i
    constructor
    · rintro ⟨j, hj, -⟩
      omega
    · intro _
      rfl
  | succ m ih =>
    intro k r hr hM i
    have hr1 : (r + 3) &&& MASK < BUFFER_SIZE := by
      rw [land_MASK]; exact mod_BUFFER_SIZE_lt _
    have hstep : addSteps (m + 1) k r = addSteps m (addVecStep k r) ((r + 3) &&& MASK) := rfl
    have hwin : ∀ j : Nat,
        (((r + 3) &&& MASK) + j) % BUFFER_SIZE = (r + (3 + j)) % BUFFER_SIZE := by
      intro j
      rw [land_MASK, Nat.mod_add_mod]
      congr 1
      omega
    have ihs := ih (addVecStep k r) ((r + 3) &&& MASK) hr1 (by omega)
    constructor
    · rintro ⟨j, hj, rfl⟩
      by_cases hj3 : j < 3
      · have hnot : ¬ ∃ j', j' < 3 * m
            ∧ (((r + 3) &&& MASK) + j') % BUFFER_SIZE = (r + j) % BUFFER_SIZE := by
          rintro ⟨j', hj', heq⟩
          rw [hwin j'] at heq
          exact mod_window_ne r j (3 + j') (by omega) (by omega) heq.symm
        rw [hstep, (ihs ((r + j) % BUFFER_SIZE)).2 hnot, addVecStep_output k r hr]
        have hcond : (r + j) % BUFFER_SIZE = r ∨ (r + j) % BUFFER_SIZE = (r + 1) % BUFFER_SIZE
            ∨ (r + j) % BUFFER_SIZE = (r + 2) % BUFFER_SIZE := by
          interval_cases j
          · left; rw [Nat.add_zero, Nat.mod_eq_of_lt hr]
          · right; left; rfl
          · right; right; rfl
        rw [if_pos hcond]
      · have hj' : ∃ j', j' < 3 * m
            ∧ (((r + 3) &&& MASK) + j') % BUFFER_SIZE = (r + j) % BUFFER_SIZE := by
          refine ⟨j - 3, by omega, ?_⟩
          rw [hwin]
          congr 1
          omega
        rw [hstep, (ihs ((r + j) % BUFFER_SIZE)).1 hj']
        have hne : ¬ ((r + j) % BUFFER_SIZE = r
            ∨ (r + j) % BUFFER_SIZE = (r + 1) % BUFFER_SIZE
            ∨ (r + j) % BUFFER_SIZE = (r + 2) % BUFFER_SIZE) := by
          push_neg
          refine ⟨?_, ?_, ?_⟩
          · intro h
            exact head_pos_ne r j hr (by omega) (by omega) h.symm
          · exact mod_window_ne r 1 j (by omega) (by omega) ∘ Eq.symm
          · exact mod_window_ne r 2 j (by omega) (by omega) ∘ Eq.symm
        rw [addVecStep_output k r hr, if_neg hne]
        simp
    · intro hno
      have hnot1 : ¬ ∃ j', j' < 3 * m
          ∧ (((r + 3) &&& MASK) + j') % BUFFER_SIZE = i := by
        rintro ⟨j', hj', heq⟩
        exact hno ⟨3 + j', by omega, by rw [← hwin j']; exact heq⟩
      have hne : ¬ (i = r ∨ i = (r + 1) % BUFFER_SIZE ∨ i = (r + 2) % BUFFER_SIZE) := by
        rintro (rfl | h | h)
        · exact hno ⟨0, by omega, by rw [Nat.add_zero, Nat.mod_eq_of_lt hr]⟩
        · exact hno ⟨1, by omega, h.symm⟩
        · exact hno ⟨2, by omega, h.symm⟩
      rw [hstep, (ihs i).2 hnot1, addVecStep_output k r hr, if_neg hne]

theorem addTailLoop_eq : ∀ (m : Nat) (k : NativeKernel) (idx : Nat),
    addTailLoop m k idx = (addSteps m k idx).1 := by
  intro m
  induction m with
  | zero => intro k idx; rfl
  | succ m ih =>
    intro k idx
    simp only [addTailLoop, addSteps]
    exact ih _ _

theorem addStep4_eq (k : NativeKernel) (idx : Nat) : addStep4 k idx = addSteps 4 k idx := rfl

theorem add_collapse : ∀ (m : Nat) (k : NativeKernel) (idx : Nat),
    addTailLoop (addMainLoop m k idx).2.2 (addMainLoop m k idx).1 (addMainLoop m k idx).2.1
      = (addSteps m k idx).1 := by
  intro m
  induction m using Nat.strong_induction_on with
  | _ m ih =>
    intro k idx
    by_cases h4 : 4 ≤ m
    · obtain ⟨m', rfl⟩ : ∃ m', m = m' + 4 := ⟨m - 4, by omega⟩
      have hmain : addMainLoop (m' + 4) k idx
          = addMainLoop m' (addStep4 k idx).1 (addStep4 k idx).2 := rfl
      rw [hmain, ih m' (by omega)]
      rw [show m' + 4 = 4 + m' by omega, addSteps_add 4 m' k idx, addStep4_eq]
    · interval_cases m
      · exact addTailLoop_eq 0 k idx
      · exact addTailLoop_eq 1 k idx
      · exact addTailLoop_eq 2 k idx
      · exact addTailLoop_eq 3 k idx

theorem vector_add_batch_eq (k : NativeKernel) (n : Nat) :
    k.vector_add_batch n = ((addSteps n k k.read_head).1, n) := by
  simp only [NativeKernel.vector_add_batch]
  rw [add_collapse]

/-- C5 counterexample: with every input byte 1 and a zeroed output region,
`vector_add_batch(21846)` covers 3·21846 = 65538 bytes, which exceeds the
capacity 65536, so the transient cursor wraps onto the start of its own
window: output byte 0 is accumulated twice and ends at 2, while the claimed
single replacement `saturating_add(output[0], input[0])` would give 1. -/
theorem C5_counterexample :
    (kOnes.vector_add_batch 21846).1.output_buffer 0 = 2
    ∧ satAddU8 (kOnes.output_buffer 0) (kOnes.buffer 0) = 1 := by
  constructor
  · rw [vector_add_batch_eq]
    rw [show (21846 : Nat) = 21845 + 1 from rfl, addSteps_add 21845 1 kOnes kOnes.read_head]
    have hrlt : kOnes.read_head < BUFFER_SIZE := by decide
    have hcur : (addSteps 21845 kOnes kOnes.read_head).2 = 65535 := by
      rw [addSteps_cursor 21845 kOnes kOnes.read_head hrlt]
      decide
    have hbuf : (addSteps 21845 kOnes kOnes.read_head).1.buffer = kOnes.buffer :=
      addSteps_buffer 21845 kOnes kOnes.read_head
    have hout0 : (addSteps 21845 kOnes kOnes.read_head).1.output_buffer 0 = 1 := by
      have h := (addSteps_output 21845 kOnes kOnes.read_head hrlt (by decide) 0).1
        ⟨0, by decide, by decide⟩
      rw [h]
      decide
    rw [hcur]
    have hone : (addSteps 1 (addSteps 21845 kOnes kOnes.read_head).1 65535).1
        = addVecStep (addSteps 21845 kOnes kOnes.read_head).1 65535 := rfl
    rw [hone, addVecStep_output _ 65535 (by norm_num [BUFFER_SIZE]) 0]
    have hcond : (0 : Nat) = 65535 ∨ (0 : Nat) = (65535 + 1) % BUFFER_SIZE
        ∨ (0 : Nat) = (65535 + 2) % BUFFER_SIZE := by
      right; left; decide
    rw [if_pos hcond, hout0, hbuf]
    decide
  · decide

/-- C5 (amended): for every n with 3n at most the capacity,
`vector_add_batch(n)` returns n, leaves the persistent `read_head`, the
`write_head`, the canaries and the input buffer unchanged, and replaces
`output[i]` by `saturating_add(output[i], input[i])` exactly on the window of
3n byte positions starting at the current `read_head` (indices reduced modulo
the capacity), leaving every other output byte unchanged.  Consequently, on a
zeroed output with input vector (10,20,30), one call with n = 1 yields output
(10,20,30) and an immediate second call yields (20,40,60), exhibiting the
non-persisting transient cursor. -/
theorem C5_add_batch_amended (k : NativeKernel) (n : Nat)
    (hr : k.read_head < BUFFER_SIZE) (hn : 3 * n ≤ BUFFER_SIZE) :
    (k.vector_add_batch n).2 = n
    ∧ (k.vector_add_batch n).1.read_head = k.read_head
    ∧ (k.vector_add_batch n).1.write_head = k.write_head
    ∧ (k.vector_add_batch n).1.buffer = k.buffer
    ∧ (k.vector_add_batch n).1.canary = k.canary
    ∧ (k.vector_add_batch n).1.tail_canary = k.tail_canary
    ∧ (∀ i,
        ((∃ j, j < 3 * n ∧ (k.read_head + j) % BUFFER_SIZE = i) →
          (k.vector_add_batch n).1.output_buffer i
            = satAddU8 (k.output_buffer i) (k.buffer i))
        ∧ ((¬ ∃ j, j < 3 * n ∧ (k.read_head + j) % BUFFER_SIZE = i) →
          (k.vector_add_batch n).1.output_buffer i = k.output_buffer i))
    ∧ ((kS.vector_add_batch 1).1.output_buffer 0, (kS.vector_add_batch 1).1.output_buffer 1,
        (kS.vector_add_batch 1).1.output_buffer 2) = (10, 20, 30)
    ∧ (((kS.vector_add_batch 1).1.vector_add_batch 1).1.output_buffer 0,
        ((kS.vector_add_batch 1).1.vector_add_batch 1).1.output_buffer 1,
        ((kS.vector_add_batch 1).1.vector_add_batch 1).1.output_buffer 2) = (20, 40, 60) := by
  refine ⟨by rw [vector_add_batch_eq], ?_, ?_, ?_, ?_, ?_, fun i => ⟨?_, ?_⟩, by decide, by decide⟩
  · rw [vector_add_batch_eq]
    exact addSteps_read_head n k k.read_head
  · rw [vector_add_batch_eq]
    exact addSteps_write_head n k k.read_head
  · rw [vector_add_batch_eq]
    exact addSteps_buffer n k k.read_head
  · rw [vector_add_batch_eq]
    exact addSteps_canary n k k.read_head
  · rw [vector_add_batch_eq]
    exact addSteps_tail_canary n k k.read_head
  · intro hex
    rw [vector_add_batch_eq]
    exact (addSteps_output n k k.read_head hr hn i).1 hex
  · intro hex
    rw [vector_add_batch_eq]
    exact (addSteps_output n k k.read_head hr hn i).2 hex

/-- Witness for the amended C5 at the concrete state `kS` with n = 1, with
every hypothesis discharged. -/
theorem C5_witness :
    kS.read_head < BUFFER_SIZE ∧ 3 * 1 ≤ BUFFER_SIZE
    ∧ (kS.vector_add_batch 1).2 = 1
    ∧ (kS.vector_add_batch 1).1.buffer = kS.buffer :=
  ⟨by decide, by decide, (C5_add_batch_amended kS 1 (by decide) (by decide)).1,
    (C5_add_batch_amended kS 1 (by decide) (by decide)).2.2.2.1⟩

theorem wrap32_idem (z : Int) : wrap32 (wrap32 z) = wrap32 z := by
  unfold wrap32
  omega

theorem wrap32_add_left (a b : Int) : wrap32 (wrap32 a + b) = wrap32 (a + b) := by
  unfold wrap32
  omega

theorem dotVec_eq (k : NativeKernel) (idx : Nat) (acc : Int) :
    dotVec k idx acc = wrap32 (acc + (dotTerm k idx + dotTerm k ((idx + 1) &&& MASK)
      + dotTerm k ((idx + 2) &&& MASK))) := by
  simp only [dotVec, dotTerm]
  rw [wrap32_add_left, Int.add_assoc, wrap32_add_left]
  congr 1
  ring

theorem dotTailLoop_eq (k : NativeKernel) : ∀ (m idx : Nat) (acc : Int),
    dotTailLoop k m idx acc = (dotSteps k m idx acc).1 := by
  intro m
  induction m with
  | zero => intro idx acc; rfl
  | succ m ih =>
    intro idx acc
    simp only [dotTailLoop, dotSteps]
    exact ih _ _

theorem dotStep4_eq (k : NativeKernel) (idx : Nat) (acc : Int) :
    dotStep4 k idx acc = ((dotSteps k 4 idx acc).1, (dotSteps k 4 idx acc).2) := rfl

theorem dotSteps_add (k : NativeKernel) (a b : Nat) : ∀ (idx : Nat) (acc : Int),
    dotSteps k (a + b) idx acc
      = dotSteps k b (dotSteps k a idx acc).2 (dotSteps k a idx acc).1 := by
  induction a with
  | zero => intro idx acc; rw [Nat.zero_add]; rfl
  | succ a ih =>
    intro idx acc
    rw [Nat.succ_add]
    simp only [dotSteps]
    exact ih _ _

theorem dot_collapse (k : NativeKernel) : ∀ (m idx : Nat) (acc : Int),
    dotTailLoop k (dotMainLoop k m idx acc).2.2 (dotMainLoop k m idx acc).2.1
        (dotMainLoop k m idx acc).1
      = (dotSteps k m idx acc).1 := by
  intro m
  induction m using Nat.strong_induction_on with
  | _ m ih =>
    intro idx acc
    by_cases h4 : 4 ≤ m
    · obtain ⟨m', rfl⟩ : ∃ m', m = m' + 4 := ⟨m - 4, by omega⟩
      have hmain : dotMainLoop k (m' + 4) idx acc
          = dotMainLoop k m' (dotStep4 k idx acc).2 (dotStep4 k idx acc).1 := rfl
      rw [hmain, ih m' (by omega)]
      rw [show m' + 4 = 4 + m' by omega, dotSteps_add k 4 m' idx acc, dotStep4_eq]
    · interval_cases m
      · exact dotTailLoop_eq k 0 idx acc
      · exact dotTailLoop_eq k 1 idx acc
      · exact dotTailLoop_eq k 2 idx acc
      · exact dotTailLoop_eq k 3 idx acc

theorem vector_dot_batch_eq (k : NativeKernel) (n : Nat) :
    k.vector_dot_batch n = (dotSteps k n k.read_head 0).1 := by
  simp only [NativeKernel.vector_dot_batch]
  rw [dot_collapse]

theorem dotWindowSum_succ (k : NativeKernel) (c m : Nat) (hc : c < BUFFER_SIZE) :
    dotWindowSum k c (m + 1)
      = (dotTerm k c + dotTerm k ((c + 1) % BUFFER_SIZE) + dotTerm k ((c + 2) % BUFFER_SIZE))
        + dotWindowSum k ((c + 3) % BUFFER_SIZE) m := by
  unfold dotWindowSum
  rw [Finset.sum_range_succ', add_comm]
  congr 1
  · simp [Nat.mod_eq_of_lt hc]
  · apply Finset.sum_congr rfl
    intro v _
    have p0 : ((c + 3) % BUFFER_SIZE + 3 * v) % BUFFER_SIZE
        = (c + 3 * (v + 1)) % BUFFER_SIZE := by
      rw [Nat.mod_add_mod]
      congr 1
      omega
    have p1 : ∀ d : Nat, ((c + 3) % BUFFER_SIZE + 3 * v + d) % BUFFER_SIZE
        = (c + 3 * (v + 1) + d) % BUFFER_SIZE := by
      intro d
      rw [Nat.add_assoc, Nat.mod_add_mod]
      congr 1
      omega
    rw [p0, p1 1, p1 2]

theorem dotSteps_spec (k : NativeKernel) : ∀ (m c : Nat) (acc : Int),
    c < BUFFER_SIZE → wrap32 acc = acc →
    (dotSteps k m c acc).1 = wrap32 (acc + dotWindowSum k c m) := by
  intro m
  induction m with
  | zero =>
    intro c acc hc hacc
    simp only [dotSteps, dotWindowSum, Finset.range_zero, Finset.sum_empty, Int.add_zero]
    exact hacc.symm
  | succ m ih =>
    intro c acc hc hacc
    have hc' : (c + 3) &&& MASK < BUFFER_SIZE := by
      rw [land_MASK]; exact mod_BUFFER_SIZE_lt _
    have hwacc : wrap32 (dotVec k c acc) = dotVec k c acc := by
      rw [dotVec_eq, wrap32_idem]
    show (dotSteps k m ((c + 3) &&& MASK) (dotVec k c acc)).1 = _
    rw [ih ((c + 3) &&& MASK) (dotVec k c acc) hc' hwacc]
    rw [dotVec_eq, wrap32_add_left, dotWindowSum_succ k c m hc]
    congr 1
    simp only [land_MASK]
    ring

/-- C6: `vector_dot_batch(n)` returns the 32-bit wrapped value of the plain
integer sum of `input[i] * output[i]` over all three components of the `n`
vectors starting at the transient `read_head` snapshot (indices reduced
modulo the capacity).  The kernel method takes `&self`, so it is a pure
function of the state: the backend wrapper returns the state unchanged, and a
second call issued right after the first (with no intervening mutation)
returns the identical value. -/
theorem C6_dot_batch (k : NativeKernel) (n : Nat) (hr : k.read_head < BUFFER_SIZE) :
    k.vector_dot_batch n = wrap32 (dotWindowSum k k.read_head n)
    ∧ NativeBackend.vector_dot_batch_op k n = .ok k
    ∧ (NativeBackend.vector_dot_batch_op k n).map (fun k2 => k2.vector_dot_batch n)
        = .ok (k.vector_dot_batch n) := by
  refine ⟨?_, rfl, rfl⟩
  rw [vector_dot_batch_eq]
  rw [dotSteps_spec k n k.read_head 0 hr (by decide)]
  rw [Int.zero_add]

/-- Witness for C6 at the concrete state `kS` with n = 2, hypothesis
discharged. -/
theorem C6_witness :
    kS.read_head < BUFFER_SIZE
    ∧ kS.vector_dot_batch 2 = wrap32 (dotWindowSum kS kS.read_head 2) :=
  ⟨by decide, (C6_dot_batch kS 2 (by decide)).1⟩

theorem streamMainLoop_pres (F : NormFn) : ∀ (fuel : Nat) (k : NativeKernel)
    (remaining processed : Nat),
    (streamMainLoop F fuel k remaining processed).1.canary = k.canary
    ∧ (streamMainLoop F fuel k remaining processed).1.tail_canary = k.tail_canary := by
  intro fuel
  induction fuel with
  | zero => intro k r p; exact ⟨rfl, rfl⟩
  | succ fuel ih =>
    intro k remaining processed
    simp only [streamMainLoop]
    by_cases h48 : 48 ≤ remaining
    · rw [if_pos h48]
      by_cases hb1 : 48 ≤ BUFFER_SIZE - k.read_head
          ∧ 0 < min remaining (BUFFER_SIZE - k.read_head) / 48 * 48
      · rw [if_pos hb1]
        refine ⟨?_, ?_⟩
        · rw [(ih _ _ _).1]; simp
        · rw [(ih _ _ _).2]; simp
      · rw [if_neg hb1]
        by_cases hb2 : BUFFER_SIZE - k.read_head < 48 ∧ 12 ≤ BUFFER_SIZE - k.read_head
        · rw [if_pos hb2]
          refine ⟨?_, ?_⟩
          · rw [(ih _ _ _).1]; simp
          · rw [(ih _ _ _).2]; simp
        · rw [if_neg hb2]
          by_cases h12 : 12 ≤ remaining
          · rw [if_pos h12]
            refine ⟨?_, ?_⟩
            · rw [(ih _ _ _).1]; simp
            · rw [(ih _ _ _).2]; simp
          · rw [if_neg h12]; exact ⟨rfl, rfl⟩
    · rw [if_neg h48]; exact ⟨rfl, rfl⟩

theorem streamCleanup_pres (F : NormFn) : ∀ (fuel : Nat) (k : NativeKernel)
    (remaining processed : Nat),
    (streamCleanup F fuel k remaining processed).1.canary = k.canary
    ∧ (streamCleanup F fuel k remaining processed).1.tail_canary = k.tail_canary := by
  intro fuel
  induction fuel with
  | zero => intro k r p; exact ⟨rfl, rfl⟩
  | succ fuel ih =>
    intro k remaining processed
    simp only [streamCleanup]
    by_cases h3 : 3 ≤ remaining
    · rw [if_pos h3]
      refine ⟨?_, ?_⟩
      · rw [(ih _ _ _).1]; simp
      · rw [(ih _ _ _).2]; simp
    · rw [if_neg h3]; exact ⟨rfl, rfl⟩

theorem process_tensor_stream_canary (F : NormFn) (k k' : NativeKernel) (n : Nat)
    (h : process_tensor_stream F k = some (k', n)) :
    k'.canary = k.canary ∧ k'.tail_canary = k.tail_canary := by
  unfold process_tensor_stream at h
  by_cases hg : k.canary ≠ 0xAA ∨ k.tail_canary ≠ 0x55
  · rw [if_pos hg] at h
    simp at h
  · rw [if_neg hg] at h
    by_cases hav : k.diff < 3
    · rw [if_pos hav] at h
      simp only [Option.some.injEq, Prod.mk.injEq] at h
      obtain ⟨h1, -⟩ := h
      rw [← h1]
      exact ⟨rfl, rfl⟩
    · rw [if_neg hav] at h
      simp only [Option.some.injEq] at h
      have hk : (streamCleanup F (streamMainLoop F k.diff k k.diff 0).2.1
          (streamMainLoop F k.diff k k.diff 0).1 (streamMainLoop F k.diff k k.diff 0).2.1
          (streamMainLoop F k.diff k k.diff 0).2.2).1 = k' := congrArg Prod.fst h
      rw [← hk]
      constructor
      · rw [(streamCleanup_pres F _ _ _ _).1, (streamMainLoop_pres F _ _ _ _).1]
      · rw [(streamCleanup_pres F _ _ _ _).2, (streamMainLoop_pres F _ _ _ _).2]

theorem set_write_head_canary (k : NativeKernel) (pos : Int) :
    (k.set_write_head pos).canary = k.canary
    ∧ (k.set_write_head pos).tail_canary = k.tail_canary := by
  unfold NativeKernel.set_write_head
  split <;> exact ⟨rfl, rfl⟩

theorem write_bytes_canary (k : NativeKernel) (off : Nat) (data : List Nat) (k' : NativeKernel)
    (h : NativeBackend.write_bytes k off data = .ok k') :
    k'.canary = k.canary ∧ k'.tail_canary = k.tail_canary := by
  unfold NativeBackend.write_bytes at h
  by_cases h1 : off < BUFFER_SIZE
  · rw [if_pos h1] at h
    by_cases h2 : BUFFER_SIZE < off + data.length
    · rw [if_pos h2] at h
      simp at h
    · rw [if_neg h2] at h
      simp only [Except.ok.injEq] at h
      rw [← h]
      exact ⟨rfl, rfl⟩
  · rw [if_neg h1] at h
    by_cases h2 : BUFFER_SIZE < off - BUFFER_SIZE + data.length
    · rw [if_pos h2] at h
      simp at h
    · rw [if_neg h2] at h
      simp only [Except.ok.injEq] at h
      rw [← h]
      exact ⟨rfl, rfl⟩

theorem reachable_canary : ∀ (k : NativeKernel), Reachable k →
    k.canary = 0xAA ∧ k.tail_canary = 0x55 := by
  intro k h
  induction h with
  | init => exact ⟨rfl, rfl⟩
  | set_write_head k pos hk ih =>
    exact ⟨(set_write_head_canary k pos).1.trans ih.1,
      (set_write_head_canary k pos).2.trans ih.2⟩
  | process k k' F n hk hp ih =>
    exact ⟨(process_tensor_stream_canary F k k' n hp).1.trans ih.1,
      (process_tensor_stream_canary F k k' n hp).2.trans ih.2⟩
  | add k n hk ih =>
    rw [vector_add_batch_eq]
    exact ⟨(addSteps_canary n k k.read_head).trans ih.1,
      (addSteps_tail_canary n k k.read_head).trans ih.2⟩
  | write k k' off data hk hw ih =>
    exact ⟨(write_bytes_canary k off data k' hw).1.trans ih.1,
      (write_bytes_canary k off data k' hw).2.trans ih.2⟩

/-- C7: `check_integrity` returns 1 exactly when both canaries hold their
sentinels (0xAA head, 0x55 tail); `set_write_head`, `process_tensor_stream`
(when it returns), `vector_add_batch` and in-bounds `write_bytes` never touch
the canary fields (`vector_dot_batch` and `read_bytes` take the kernel
immutably); hence `check_integrity` returns 1 in every state reachable from
construction through these operations, and returns 0 as soon as either canary
byte is overwritten externally. -/
theorem C7_canary_integrity :
    (∀ k : NativeKernel, k.check_integrity = 1 ↔ (k.canary = 0xAA ∧ k.tail_canary = 0x55))
    ∧ (∀ k : NativeKernel, Reachable k → k.check_integrity = 1)
    ∧ (∀ (k : NativeKernel) (c : Nat), c ≠ 0xAA →
        ({ k with canary := c } : NativeKernel).check_integrity = 0)
    ∧ (∀ (k : NativeKernel) (c : Nat), c ≠ 0x55 →
        ({ k with tail_canary := c } : NativeKernel).check_integrity = 0)
    ∧ (∀ (k : NativeKernel) (pos : Int),
        (k.set_write_head pos).canary = k.canary
        ∧ (k.set_write_head pos).tail_canary = k.tail_canary)
    ∧ (∀ (F : NormFn) (k k' : NativeKernel) (n : Nat),
        process_tensor_stream F k = some (k', n) →
        k'.canary = k.canary ∧ k'.tail_canary = k.tail_canary)
    ∧ (∀ (k : NativeKernel) (n : Nat),
        (k.vector_add_batch n).1.canary = k.canary
        ∧ (k.vector_add_batch n).1.tail_canary = k.tail_canary)
    ∧ (∀ (k : NativeKernel) (off : Nat) (data : List Nat) (k' : NativeKernel),
        NativeBackend.write_bytes k off data = .ok k' →
        k'.canary = k.canary ∧ k'.tail_canary = k.tail_canary) := by
  refine ⟨?_, ?_, ?_, ?_, set_write_head_canary, process_tensor_stream_canary, ?_,
    write_bytes_canary⟩
  · intro k
    unfold NativeKernel.check_integrity
    constructor
    · intro h
      by_contra hne
      rw [if_neg hne] at h
      exact absurd h (by norm_num)
    · intro h
      rw [if_pos h]
  · intro k hk
    unfold NativeKernel.check_integrity
    rw [if_pos (reachable_canary k hk)]
  · intro k c hc
    unfold NativeKernel.check_integrity
    rw [if_neg (by simp [hc])]
  · intro k c hc
    unfold NativeKernel.check_integrity
    rw [if_neg (by simp [hc])]
  · intro k n
    rw [vector_add_batch_eq]
    exact ⟨addSteps_canary n k k.read_head, addSteps_tail_canary n k k.read_head⟩

/-- Witness for C7: the freshly constructed kernel is reachable and passes
the integrity check; overwriting its head canary with 0 makes the check
return 0. -/
theorem C7_witness :
    NativeKernel.new.check_integrity = 1
    ∧ ({ NativeKernel.new with canary := 0 } : NativeKernel).check_integrity = 0 :=
  ⟨C7_canary_integrity.2.1 NativeKernel.new Reachable.init,
    C7_canary_integrity.2.2.1 NativeKernel.new 0 (by norm_num)⟩

/-- C9: `set_write_head(pos)` ignores every negative position without
reporting an error (the native backend wrapper returns success and the state
is untouched); for every nonnegative position it stores the position masked
by the capacity bitmask, which equals reduction modulo the capacity and lies
in `[0, capacity)`; consequently after any sequence of `set_write_head` calls
from construction the write head is always in `[0, capacity)`. -/
theorem C9_set_write_head :
    (∀ (k : NativeKernel) (pos : Int), pos < 0 →
        k.set_write_head pos = k ∧ NativeBackend.set_write_head k pos = .ok k)
    ∧ (∀ (k : NativeKernel) (pos : Int), 0 ≤ pos →
        (k.set_write_head pos).write_head = pos.toNat &&& MASK
        ∧ pos.toNat &&& MASK = pos.toNat % BUFFER_SIZE
        ∧ (k.set_write_head pos).write_head < BUFFER_SIZE)
    ∧ (∀ l : List Int,
        (l.foldl NativeKernel.set_write_head NativeKernel.new).write_head < BUFFER_SIZE) := by
  refine ⟨?_, ?_, ?_⟩
  · intro k pos hneg
    have hno : ¬ (0 ≤ pos) := by omega
    constructor
    · unfold NativeKernel.set_write_head
      rw [if_neg hno]
    · unfold NativeBackend.set_write_head NativeKernel.set_write_head
      rw [if_neg hno]
  · intro k pos hpos
    have h1 : (k.set_write_head pos).write_head = pos.toNat &&& MASK := by
      unfold NativeKernel.set_write_head
      rw [if_pos hpos]
    refine ⟨h1, land_MASK _, ?_⟩
    rw [h1, land_MASK]
    exact mod_BUFFER_SIZE_lt _
  · intro l
    have hgen : ∀ (l : List Int) (k : NativeKernel), k.write_head < BUFFER_SIZE →
        (l.foldl NativeKernel.set_write_head k).write_head < BUFFER_SIZE := by
      intro l
      induction l with
      | nil => intro k hk; exact hk
      | cons p l ih =>
        intro k hk
        apply ih
        unfold NativeKernel.set_write_head
        split
        · rw [land_MASK]
          exact mod_BUFFER_SIZE_lt _
        · exact hk
    exact hgen l NativeKernel.new (by decide)

/-- Witness for C9: a negative position (-5) is ignored without error, and
position 70000 is masked to 70000 % 65536 = 4464, in range. -/
theorem C9_witness :
    (NativeKernel.new.set_write_head (-5) = NativeKernel.new
      ∧ NativeBackend.set_write_head NativeKernel.new (-5) = .ok NativeKernel.new)
    ∧ ((NativeKernel.new.set_write_head 70000).write_head = (70000 : Int).toNat &&& MASK
      ∧ (70000 : Int).toNat &&& MASK = (70000 : Int).toNat % BUFFER_SIZE
      ∧ (NativeKernel.new.set_write_head 70000).write_head < BUFFER_SIZE) :=
  ⟨C9_set_write_head.1 NativeKernel.new (-5) (by norm_num),
    C9_set_write_head.2.1 NativeKernel.new 70000 (by norm_num)⟩

/-- C8 counterexample: the claim fails on both backends.  Native backend:
`read_bytes(65535, 2)` asks for a range crossing out of the input region;
the source slices `buffer[65535..65537]` with no check of its own, so the
call hits Rust's slice-bounds panic (`indexOutOfBounds` in this model)
instead of failing with a returned error.  Wasm backend: with the two
65536-byte regions at offsets (0, 65536) — the layout `WasmBackend::new`
adopts for `wasmTinyMemory` — and a linear memory of 131076 bytes, the range
[131072, 131076) exceeds both valid regions, yet `write_bytes` succeeds and
stores the bytes (and `read_bytes` reads them back), because the only bounds
check is the runtime's check against the whole linear memory. -/
theorem C8_counterexample :
    NativeBackend.read_bytes NativeKernel.new 65535 2 = .error .indexOutOfBounds
    ∧ Except.map (fun m => m.data 131072)
        (WasmBackend.write_bytes wasmMemBig 131072 [1, 2, 3, 4]) = .ok 1
    ∧ WasmBackend.read_bytes wasmMemBig 131072 4 = .ok [0, 0, 0, 0]
    ∧ ¬ (131072 + 4 ≤ 0 + 65536)
    ∧ ¬ (131072 + 4 ≤ 65536 + 65536) :=
  ⟨rfl, rfl, rfl, by norm_num, by norm_num⟩

/-- C8 (amended): raw-access rejection is per-backend.  Native backend:
`write_bytes` fails with a returned error (`bail`) exactly when the
requested range leaves the addressed region, and in-range requests succeed;
`read_bytes` also rejects every such range — never truncating or accessing
out of range — but through the implicit slice-bounds panic rather than a
returned error.  Wasm backend: `write_bytes` and `read_bytes` delegate
directly to the module memory's accessors, which bounds-check against the
whole linear memory only: they fail with a returned error exactly when the
range exceeds the memory size, so a range outside the two valid regions but
inside the linear memory is not rejected at all. -/
theorem C8_raw_access_amended :
    (∀ (k : NativeKernel) (offset : Nat) (data : List Nat),
        offset < BUFFER_SIZE → BUFFER_SIZE < offset + data.length →
        NativeBackend.write_bytes k offset data = .error .writeOverflow)
    ∧ (∀ (k : NativeKernel) (offset : Nat) (data : List Nat),
        BUFFER_SIZE ≤ offset → BUFFER_SIZE < offset - BUFFER_SIZE + data.length →
        NativeBackend.write_bytes k offset data = .error .writeOverflowOutput)
    ∧ (∀ (k : NativeKernel) (offset len : Nat),
        offset < BUFFER_SIZE → BUFFER_SIZE < offset + len →
        NativeBackend.read_bytes k offset len = .error .indexOutOfBounds)
    ∧ (∀ (k : NativeKernel) (offset len : Nat),
        BUFFER_SIZE ≤ offset → BUFFER_SIZE < offset - BUFFER_SIZE + len →
        NativeBackend.read_bytes k offset len = .error .indexOutOfBounds)
    ∧ (∀ (k : NativeKernel) (offset : Nat) (data : List Nat),
        (offset + data.length ≤ BUFFER_SIZE)
          ∨ (BUFFER_SIZE ≤ offset ∧ offset + data.length ≤ 2 * BUFFER_SIZE) →
        ∃ k', NativeBackend.write_bytes k offset data = .ok k')
    ∧ (∀ (k : NativeKernel) (offset len : Nat),
        (offset + len ≤ BUFFER_SIZE)
          ∨ (BUFFER_SIZE ≤ offset ∧ offset + len ≤ 2 * BUFFER_SIZE) →
        ∃ v, NativeBackend.read_bytes k offset len = .ok v)
    ∧ (∀ (mem : WasmMemory) (offset : Nat) (data : List Nat),
        mem.size < offset + data.length →
        WasmBackend.write_bytes mem offset data = .error .memoryAccess)
    ∧ (∀ (mem : WasmMemory) (offset : Nat) (data : List Nat),
        offset + data.length ≤ mem.size →
        ∃ mem', WasmBackend.write_bytes mem offset data = .ok mem')
    ∧ (∀ (mem : WasmMemory) (offset len : Nat),
        mem.size < offset + len →
        WasmBackend.read_bytes mem offset len = .error .memoryAccess)
    ∧ (∀ (mem : WasmMemory) (offset len : Nat),
        offset + len ≤ mem.size →
        ∃ v, WasmBackend.read_bytes mem offset len = .ok v) := by
  refine ⟨?_, ?_, ?_, ?_, ?_, ?_, ?_, ?_, ?_, ?_⟩
  · intro k offset data h1 h2
    unfold NativeBackend.write_bytes
    rw [if_pos h1, if_pos h2]
  · intro k offset data h1 h2
    unfold NativeBackend.write_bytes
    rw [if_neg (by omega : ¬ offset < BUFFER_SIZE), if_pos h2]
  · intro k offset len h1 h2
    unfold NativeBackend.read_bytes
    rw [if_pos h1, if_neg (by omega : ¬ offset + len ≤ BUFFER_SIZE)]
  · intro k offset len h1 h2
    unfold NativeBackend.read_bytes
    rw [if_neg (by omega : ¬ offset < BUFFER_SIZE),
      if_neg (by omega : ¬ offset - BUFFER_SIZE + len ≤ BUFFER_SIZE)]
  · intro k offset data h
    by_cases hoff : offset < BUFFER_SIZE
    · unfold NativeBackend.write_bytes
      rw [if_pos hoff, if_neg (show ¬ BUFFER_SIZE < offset + data.length by
        rcases h with h | ⟨h1, h2⟩ <;> omega)]
      exact ⟨_, rfl⟩
    · unfold NativeBackend.write_bytes
      rw [if_neg hoff, if_neg (show ¬ BUFFER_SIZE < offset - BUFFER_SIZE + data.length by
        rcases h with h | ⟨h1, h2⟩ <;> omega)]
      exact ⟨_, rfl⟩
  · intro k offset len h
    by_cases hoff : offset < BUFFER_SIZE
    · unfold NativeBackend.read_bytes
      rw [if_pos hoff, if_pos (show offset + len ≤ BUFFER_SIZE by
        rcases h with h | ⟨h1, h2⟩ <;> omega)]
      exact ⟨_, rfl⟩
    · unfold NativeBackend.read_bytes
      rw [if_neg hoff, if_pos (show offset - BUFFER_SIZE + len ≤ BUFFER_SIZE by
        rcases h with h | ⟨h1, h2⟩ <;> omega)]
      exact ⟨_, rfl⟩
  · intro mem offset data h
    unfold WasmBackend.write_bytes WasmMemory.write
    rw [if_neg (by omega : ¬ offset + data.length ≤ mem.size)]
  · intro mem offset data h
    unfold WasmBackend.write_bytes WasmMemory.write
    rw [if_pos h]
    exact ⟨_, rfl⟩
  · intro mem offset len h
    unfold WasmBackend.read_bytes WasmMemory.read
    rw [if_neg (by omega : ¬ offset + len ≤ mem.size)]
  · intro mem offset len h
    unfold WasmBackend.read_bytes WasmMemory.read
    rw [if_pos h]
    exact ⟨_, rfl⟩

/-- Witness for the amended C8: on the native backend a write of ten bytes
at offset 65530 crosses the input region and returns the overflow error
while the matching read fails with the slice-bounds outcome; on the wasm
backend a one-byte write past the 131076-byte memory returns the memory
access error, while a four-byte read wholly inside the memory (though
outside both regions) succeeds. -/
theorem C8_witness :
    (65530 : Nat) < BUFFER_SIZE
    ∧ BUFFER_SIZE < 65530 + ([1, 2, 3, 4, 5, 6, 7, 8, 9, 10] : List Nat).length
    ∧ NativeBackend.write_bytes NativeKernel.new 65530 [1, 2, 3, 4, 5, 6, 7, 8, 9, 10]
        = .error .writeOverflow
    ∧ NativeBackend.read_bytes NativeKernel.new 65530 10 = .error .indexOutOfBounds
    ∧ wasmMemBig.size < 131076 + ([1] : List Nat).length
    ∧ WasmBackend.write_bytes wasmMemBig 131076 [1] = .error .memoryAccess
    ∧ 131072 + 4 ≤ wasmMemBig.size
    ∧ (∃ v, WasmBackend.read_bytes wasmMemBig 131072 4 = .ok v) :=
  ⟨by norm_num [BUFFER_SIZE], by norm_num [BUFFER_SIZE],
    C8_raw_access_amended.1 NativeKernel.new 65530 [1, 2, 3, 4, 5, 6, 7, 8, 9, 10]
      (by norm_num [BUFFER_SIZE]) (by norm_num [BUFFER_SIZE]),
    C8_raw_access_amended.2.2.1 NativeKernel.new 65530 10
      (by norm_num [BUFFER_SIZE]) (by norm_num [BUFFER_SIZE]),
    by norm_num [wasmMemBig],
    C8_raw_access_amended.2.2.2.2.2.2.1 wasmMemBig 131076 [1] (by norm_num [wasmMemBig]),
    by norm_num [wasmMemBig],
    C8_raw_access_amended.2.2.2.2.2.2.2.2.2 wasmMemBig 131072 4 (by norm_num [wasmMemBig])⟩

/-- C10: the native backend's virtual address space has input offset 0,
output offset 65536 = capacity; a `write_bytes` whose offset addresses the
input region (below the capacity) never changes any output byte, and one
addressing the output region (at or above the capacity) never changes any
input byte, so the two regions are disjoint. -/
theorem C10_native_layout :
    NativeBackend.get_input_offset = 0
    ∧ NativeBackend.get_output_offset = 65536
    ∧ NativeBackend.get_cap = 65536
    ∧ NativeBackend.get_output_offset = NativeBackend.get_cap
    ∧ (∀ (k : NativeKernel) (offset : Nat) (data : List Nat), offset < BUFFER_SIZE →
        Except.map NativeKernel.output_buffer (NativeBackend.write_bytes k offset data)
          = Except.map (fun _ => k.output_buffer) (NativeBackend.write_bytes k offset data))
    ∧ (∀ (k : NativeKernel) (offset : Nat) (data : List Nat), BUFFER_SIZE ≤ offset →
        Except.map NativeKernel.buffer (NativeBackend.write_bytes k offset data)
          = Except.map (fun _ => k.buffer) (NativeBackend.write_bytes k offset data)) := by
  refine ⟨rfl, rfl, rfl, rfl, ?_, ?_⟩
  · intro k offset data hoff
    unfold NativeBackend.write_bytes
    rw [if_pos hoff]
    by_cases h2 : BUFFER_SIZE < offset + data.length
    · rw [if_pos h2]
      rfl
    · rw [if_neg h2]
      rfl
  · intro k offset data hoff
    unfold NativeBackend.write_bytes
    rw [if_neg (by omega : ¬ offset < BUFFER_SIZE)]
    by_cases h2 : BUFFER_SIZE < offset - BUFFER_SIZE + data.length
    · rw [if_pos h2]
      rfl
    · rw [if_neg h2]
      rfl

/-- Witness for C10: writing one byte into the input region leaves the
output region untouched. -/
theorem C10_witness :
    (0 : Nat) < BUFFER_SIZE
    ∧ Except.map NativeKernel.output_buffer (NativeBackend.write_bytes NativeKernel.new 0 [7])
        = Except.map (fun _ => NativeKernel.new.output_buffer)
            (NativeBackend.write_bytes NativeKernel.new 0 [7]) :=
  ⟨by norm_num [BUFFER_SIZE],
    C10_native_layout.2.2.2.2.1 NativeKernel.new 0 [7] (by norm_num [BUFFER_SIZE])⟩

/-- C3 (code evaluated at the failing input): `WasmBackend::new` performs no
memory-safety validation.  Against the module `wasmTinyMemory` — reported
memory size 0, capacity 65536 at offsets (0, 65536) — construction succeeds
although both `input_offset + capacity` and `output_offset + capacity`
exceed the reported memory size; moreover construction is entirely
insensitive to the reported memory size (the `Validation of Layout` step in
`MoonlightBridge::ignite` only logs the capacity). -/
theorem C3_no_memory_validation :
    WasmBackend.new wasmTinyMemory false
      = .ok { cap := 65536, input_offset := 0, output_offset := 65536,
              has_vector_add_batch := true, has_vector_dot_batch := true,
              has_check_integrity := true }
    ∧ wasmTinyMemory.memory_size < 0 + 65536
    ∧ wasmTinyMemory.memory_size < 65536 + 65536
    ∧ (∀ (m : WasmModule) (s : Bool) (v : Nat),
        WasmBackend.new { m with memory_size := v } s = WasmBackend.new m s) :=
  ⟨rfl, by norm_num [wasmTinyMemory], by norm_num [wasmTinyMemory], fun _ _ _ => rfl⟩

/-- C4: whenever a batch write starting at `write_pos < cap` needs
`bytes_needed = count*3` bytes with `0 < bytes_needed ≤ cap` and
`write_pos + bytes_needed > cap`, `write_batch` issues exactly two
`write_bytes` calls: the first at `input_offset + write_pos` with
`cap - write_pos` bytes (filling up to the capacity boundary) and the second
at `input_offset` with the remaining `bytes_needed - (cap - write_pos)`
bytes; together they cover exactly `bytes_needed` bytes, and the returned
cursor is `(write_pos + bytes_needed) % cap`. -/
theorem C4_write_batch_wrap (cap input_offset : Nat) (noise : List Nat)
    (write_pos count : Nat)
    (hwp : write_pos < cap) (hpos : 0 < count * 3) (hle : count * 3 ≤ cap)
    (hwrap : cap < write_pos + count * 3) :
    ∃ first second : List Nat,
      (write_batch cap input_offset noise write_pos count).2.1
        = [(input_offset + write_pos, first), (input_offset, second)]
      ∧ first.length = cap - write_pos
      ∧ second.length = count * 3 - (cap - write_pos)
      ∧ first.length + second.length = count * 3
      ∧ (write_batch cap input_offset noise write_pos count).2.2
          = (write_pos + count * 3) % cap := by
  have hnlen : count * 3
      ≤ (if noise.length < count * 3 then noisePattern (count * 3) else noise).length := by
    split
    · simp [noisePattern]
    · omega
  simp only [write_batch]
  rw [if_neg (show ¬ (write_pos + count * 3 ≤ cap) by omega)]
  refine ⟨_, _, rfl, ?_, ?_, ?_, rfl⟩
  · rw [List.length_take, List.length_take]
    omega
  · rw [List.length_drop, List.length_take]
    omega
  · rw [List.length_take, List.length_take, List.length_drop, List.length_take]
    omega

/-- Witness for C4 at cap = 6, input offset 0, empty noise buffer,
write position 4, one vector: the write wraps (4 + 3 > 6) and splits. -/
theorem C4_witness :
    (4 : Nat) < 6 ∧ (0 : Nat) < 1 * 3 ∧ (1 : Nat) * 3 ≤ 6 ∧ (6 : Nat) < 4 + 1 * 3
    ∧ (∃ first second : List Nat,
        (write_batch 6 0 [] 4 1).2.1 = [(0 + 4, first), (0, second)]
        ∧ first.length = 6 - 4
        ∧ second.length = 1 * 3 - (6 - 4)
        ∧ first.length + second.length = 1 * 3
        ∧ (write_batch 6 0 [] 4 1).2.2 = (4 + 1 * 3) % 6) :=
  ⟨by norm_num, by norm_num, by norm_num, by norm_num,
    C4_write_batch_wrap 6 0 [] 4 1 (by norm_num) (by norm_num) (by norm_num) (by norm_num)⟩
